import Mathlib

/-!
# audioscanner: a shallow embedding of `analyzer.go` and `main.go`

The development follows the two source files.

* `analyzer.go`: the probe result types, `AnalyzeAudio` and `parseMetadata`.
  The Go standard library functions the normalizer relies on are modelled here:
  `strconv.Atoi` (through `strconv.ParseInt` and `strconv.ParseUint`, for a
  64-bit `int`) and `filepath.Base` (Unix separator).  The float64 operations
  are parameters of the program (`FloatLib`); `goFloat` instantiates them with
  a model of `strconv.ParseFloat` in which only the rounding of finite values
  is left open.
* `main.go`: `AnalyzeHandler`, `writeJSONError`, `writeJSONSuccess`.  The
  buffered channel `workerPool` is a counter of buffered tokens with capacity
  `K`; a send is enabled only while the counter is below `K`.  The deferred
  functions are run at function exit in last-in first-out order.
-/

namespace AudioScanner

set_option maxRecDepth 8000
set_option exponentiation.threshold 1100

/-! ## Go standard library: `strconv` and `filepath` -/

/-- The two error kinds of `strconv.NumError`. -/
inductive NumErr where
  | ErrSyntax
  | ErrRange
  deriving DecidableEq, Repr

/-- First byte of the UTF-8 encoding of a character.  Go strings are byte
sequences and the parsers below stop at the first byte that is not a digit, so
only the first byte of a character is ever inspected. -/
def leadByte (c : Char) : Nat :=
  if c.toNat < 0x80 then c.toNat
  else if c.toNat < 0x800 then 0xC0 + c.toNat / 64
  else if c.toNat < 0x10000 then 0xE0 + c.toNat / 4096
  else 0xF0 + c.toNat / 262144

/-- Byte subtraction `ch - '0'` (wrapping modulo 256). -/
def subZero (c : Char) : Nat := (leadByte c + 256 - 48) % 256

/-- `maxUint64`. -/
def maxUint64 : Nat := 2 ^ 64 - 1

/-- Cutoff of `ParseUint` for base 10: the smallest number such that
`cutoff * 10 > maxUint64`. -/
def uintCutoff : Nat := maxUint64 / 10 + 1

/-- The digit loop of `strconv.ParseUint(s, 10, 64)`.  A byte that is not a
decimal digit (letters give a digit value `>= base`) is a syntax error with
value 0; an overflow returns `maxVal` with a range error at once, without
looking at the remaining bytes. -/
def ParseUintLoop : List Char → Nat → Nat × Option NumErr
  | [], n => (n, none)
  | c :: cs, n =>
    if subZero c > 9 then (0, some NumErr.ErrSyntax)
    else if n ≥ uintCutoff then (maxUint64, some NumErr.ErrRange)
    else
      let n10 := (n * 10) % 2 ^ 64
      let n1 := (n10 + subZero c) % 2 ^ 64
      if n1 < n10 ∨ n1 > maxUint64 then (maxUint64, some NumErr.ErrRange)
      else ParseUintLoop cs n1

/-- Model of `strconv.ParseUint(s, 10, 64)`. -/
def ParseUint (s : List Char) : Nat × Option NumErr :=
  if s = [] then (0, some NumErr.ErrSyntax) else ParseUintLoop s 0

/-- Conversion to `int64` (two's complement wrap). -/
def wrapInt64 (x : Int) : Int := (x + 2 ^ 63) % 2 ^ 64 - 2 ^ 63

/-- Model of `strconv.ParseInt(s, 10, 0)` with `IntSize = 64`. -/
def ParseInt (s : List Char) : Int × Option NumErr :=
  match s with
  | [] => (0, some NumErr.ErrSyntax)
  | c :: rest =>
    let neg := c = '-'
    let body := if c = '+' ∨ c = '-' then rest else s
    let un := ParseUint body
    if un.2 = some NumErr.ErrSyntax then (0, some NumErr.ErrSyntax)
    else
      let cutoff : Nat := 2 ^ 63
      if ¬ neg ∧ un.1 ≥ cutoff then (wrapInt64 (cutoff - 1 : Nat), some NumErr.ErrRange)
      else if neg ∧ un.1 > cutoff then (wrapInt64 (-(wrapInt64 cutoff)), some NumErr.ErrRange)
      else
        let n := wrapInt64 un.1
        (if neg then wrapInt64 (-n) else n, none)

/-- The digit loop of the fast path of `strconv.Atoi`. -/
def AtoiFastLoop : List Char → Int → Int × Option NumErr
  | [], n => (n, none)
  | c :: cs, n =>
    if subZero c > 9 then (0, some NumErr.ErrSyntax)
    else AtoiFastLoop cs (wrapInt64 (n * 10 + subZero c))

/-- Fast path of `strconv.Atoi` (taken for `0 < len(s) < 19`). -/
def AtoiFast (s : List Char) : Int × Option NumErr :=
  match s with
  | [] => (0, some NumErr.ErrSyntax)
  | c :: rest =>
    let body := if c = '-' ∨ c = '+' then rest else s
    if body.length < 1 then (0, some NumErr.ErrSyntax)
    else
      let r := AtoiFastLoop body 0
      if r.2 ≠ none then r
      else (if c = '-' then wrapInt64 (-r.1) else r.1, none)

/-- Model of `strconv.Atoi` for a 64-bit `int`: the returned value and the error
kind (`none` for a nil error). -/
def Atoi (s : String) : Int × Option NumErr :=
  let sLen := s.utf8ByteSize
  if 0 < sLen ∧ sLen < 19 then AtoiFast s.toList else ParseInt s.toList

/-- Model of `filepath.Base` with `/` as the only separator. -/
def Base (path : String) : String :=
  if path = "" then "."
  else
    let p := (path.toList.reverse.dropWhile (fun c => c = '/')).reverse
    let last := (p.reverse.takeWhile (fun c => c ≠ '/')).reverse
    if last = [] then "/" else String.mk last

/-- The float64 operations used by the program, taken as parameters:
`ParseFloat s` is the value `strconv.ParseFloat(s, 64)` returns together with
whether its error is non-nil, `fdiv` is float64 division, `ofNat` the conversion
of an integer constant, and `encodable x` tells whether `encoding/json` can
encode `x` (it cannot encode NaN and the infinities). -/
structure FloatLib where
  F : Type
  ParseFloat : String → F × Bool
  fdiv : F → F → F
  ofNat : Nat → F
  encodable : F → Bool

/-! ## Go standard library: `strconv.ParseFloat`

The syntax accepted by `ParseFloat`, the zero it returns with a syntax error
and the infinity it returns with a range error are modelled from `atof.go`.
The rounding of a well-formed literal inside the float64 range is a
parameter. -/

/-- Values of type float64: a finite value is `mant * 2 ^ exp`, negated when
`neg` is set; zero has mantissa 0. -/
inductive Float64 where
  | nan
  | inf (neg : Bool)
  | finite (neg : Bool) (mant : Nat) (exp : Int)
  deriving DecidableEq, Repr

/-- The float64 `0` (positive zero). -/
def Float64.zero : Float64 := Float64.finite false 0 0

/-- The two roundings of float64 arithmetic that are left open: `nearest b m e`
is the float64 nearest to `m * b ^ e` as mantissa and binary exponent, for a
non-zero value below the overflow threshold; `quotient m e m2 e2` is the float64
nearest to `(m * 2 ^ e) / (m2 * 2 ^ e2)`. -/
structure Rounding where
  nearest : Nat → Nat → Int → Nat × Int
  quotient : Nat → Int → Nat → Int → Nat × Int

/-- The function `lower` of strconv: `c | ('x' - 'X')`, on the first byte. -/
def lowerByte (c : Char) : Nat := leadByte c ||| 0x20

/-- The function `commonPrefixLenIgnoreCase` of strconv; the second argument is
in lower case. -/
def commonPrefixLenIgnoreCase : List Char → List Char → Nat
  | c :: s, p :: pat =>
    let c1 := if 65 ≤ leadByte c ∧ leadByte c ≤ 90 then leadByte c + 32 else leadByte c
    if c1 ≠ p.toNat then 0 else 1 + commonPrefixLenIgnoreCase s pat
  | _, _ => 0

/-- The case `'i', 'I'` of `special`: an infinity, spelled `inf` or `infinity`;
the result is the value and the unread rest. -/
def specialInf (neg : Bool) (s : List Char) : Option (Float64 × List Char) :=
  let n := commonPrefixLenIgnoreCase s "infinity".toList
  let n := if 3 < n ∧ n < 8 then 3 else n
  if n = 3 ∨ n = 8 then some (Float64.inf neg, s.drop n) else none

/-- The function `special` of strconv: the spellings of the infinities and of NaN.
A sign falls through to the infinity case. -/
def special (s : List Char) : Option (Float64 × List Char) :=
  match s with
  | [] => none
  | c :: rest =>
    if c = '+' ∨ c = '-' then specialInf (c = '-') rest
    else if c = 'i' ∨ c = 'I' then specialInf false s
    else if c = 'n' ∨ c = 'N' then
      if commonPrefixLenIgnoreCase s "nan".toList = 3 then some (Float64.nan, s.drop 3) else none
    else none

/-- State of the digit loop of `readFloat`.  `digits` is the value of the `nd`
digits read so far; Go keeps only the first 19 (16 in base 16) of them in
`mantissa` and records the loss in `trunc`, and then converts the whole literal
with correct rounding. -/
structure DigitState where
  underscores : Bool
  sawdot : Bool
  sawdigits : Bool
  nd : Nat
  dp : Int
  digits : Nat
  deriving DecidableEq, Repr

/-- The digit loop of `readFloat` (label `loop`); the result is the state and the
unread rest. -/
def readDigits (hex : Bool) : List Char → DigitState → DigitState × List Char
  | [], st => (st, [])
  | c :: cs, st =>
    if c = '_' then readDigits hex cs { st with underscores := true }
    else if c = '.' then
      if st.sawdot then (st, c :: cs)
      else readDigits hex cs { st with sawdot := true, dp := st.nd }
    else if subZero c ≤ 9 then
      if c = '0' ∧ st.nd = 0 then
        readDigits hex cs { st with sawdigits := true, dp := st.dp - 1 }
      else
        readDigits hex cs
          { st with sawdigits := true, nd := st.nd + 1,
                    digits := st.digits * (if hex then 16 else 10) + subZero c }
    else if hex ∧ 97 ≤ lowerByte c ∧ lowerByte c ≤ 102 then
      readDigits hex cs
        { st with sawdigits := true, nd := st.nd + 1,
                  digits := st.digits * 16 + (lowerByte c - 97 + 10) }
    else (st, c :: cs)

/-- The exponent loop of `readFloat`: digits and underscores; the exponent stops
growing once it has reached 10000.  The result is the exponent, whether an
underscore was seen, and the unread rest. -/
def readExponent : List Char → Nat → Bool → Nat × Bool × List Char
  | [], e, us => (e, us, [])
  | c :: cs, e, us =>
    if c = '_' then readExponent cs e true
    else if subZero c ≤ 9 then
      readExponent cs (if e < 10000 then e * 10 + subZero c else e) us
    else (e, us, c :: cs)

/-- The loop of `underscoreOK`; `saw` is the last character class seen: `'^'` the
beginning, `'0'` a digit or the base marker, `'_'` an underscore, `'!'` anything
else. -/
def underscoreLoop (hex : Bool) : List Char → Char → Bool
  | [], saw => saw ≠ '_'
  | c :: cs, saw =>
    if subZero c ≤ 9 ∨ (hex ∧ 97 ≤ lowerByte c ∧ lowerByte c ≤ 102) then underscoreLoop hex cs '0'
    else if c = '_' then
      if saw ≠ '0' then false else underscoreLoop hex cs '_'
    else if saw = '_' then false
    else underscoreLoop hex cs '!'

/-- The function `underscoreOK` of strconv: an underscore may stand only between
digits, or between a base marker and a digit. -/
def underscoreOK (s : List Char) : Bool :=
  let s :=
    match s with
    | c :: rest => if c = '-' ∨ c = '+' then rest else s
    | [] => s
  match s with
  | a :: b :: rest =>
    if a = '0' ∧ (lowerByte b = 98 ∨ lowerByte b = 111 ∨ lowerByte b = 120) then
      underscoreLoop (lowerByte b = 120) rest '0'
    else underscoreLoop false s '^'
  | _ => underscoreLoop false s '^'

/-- A literal read by `readFloat`: the value is `digits * 10 ^ exp`, or
`digits * 2 ^ exp` for a base 16 literal, negated when `neg` is set. -/
structure Literal where
  neg : Bool
  hex : Bool
  digits : Nat
  exp : Int
  deriving DecidableEq, Repr

/-- The test for the base 16 marker in `readFloat`:
`i+2 < len(s) && s[i] == '0' && lower(s[i+1]) == 'x'`. -/
def hasHexMarker : List Char → Bool
  | a :: b :: _ :: _ => a = '0' ∧ lowerByte b = 120
  | _ => false

/-- The function `readFloat` of strconv: the literal read and the unread rest, or
`none` when no well-formed literal starts the text. -/
def readFloat (s : List Char) : Option (Literal × List Char) :=
  match s with
  | [] => none
  | c :: rest =>
    let neg : Bool := c = '-'
    let s1 := if c = '+' ∨ c = '-' then rest else s
    let hex : Bool := hasHexMarker s1
    let s2 := if hex then s1.drop 2 else s1
    let r := readDigits hex s2
      { underscores := false, sawdot := false, sawdigits := false, nd := 0, dp := 0, digits := 0 }
    let st := r.1
    let s3 := r.2
    if ¬ st.sawdigits then none
    else
      let dp : Int := if st.sawdot then st.dp else st.nd
      let dp : Int := if hex then dp * 4 else dp
      let nd : Int := if hex then st.nd * 4 else st.nd
      let finish (dp : Int) (underscores : Bool) (unread : List Char) :
          Option (Literal × List Char) :=
        if underscores ∧ ¬ underscoreOK (s.take (s.length - unread.length)) then none
        else some ({ neg := neg, hex := hex, digits := st.digits, exp := dp - nd }, unread)
      match s3 with
      | [] => if hex then none else finish dp st.underscores []
      | x :: s4 =>
        if lowerByte x = (if hex then 112 else 101) then
          match s4 with
          | [] => none
          | y :: s5 =>
            let esign : Int := if y = '-' then -1 else 1
            let s6 := if y = '+' ∨ y = '-' then s5 else s4
            match s6 with
            | [] => none
            | z :: _ =>
              if ¬ subZero z ≤ 9 then none
              else
                let e := readExponent s6 0 st.underscores
                finish (dp + e.1 * esign) e.2.1 e.2.2
        else if hex then none
        else finish dp st.underscores s3

/-- The smallest magnitude that rounds to an infinity: half an ulp above the
largest float64. -/
def overflowThreshold : Nat := 2 ^ 1024 - 2 ^ 970

/-- Whether `m * b ^ e` rounds to an infinity. -/
def overflows (b m : Nat) (e : Int) : Bool :=
  if 0 ≤ e then decide (overflowThreshold ≤ m * b ^ e.toNat)
  else decide (overflowThreshold * b ^ (-e).toNat ≤ m)

/-- Model of `strconv.ParseFloat(s, 64)`: the value and the error kind.  A text
that is not entirely one well-formed literal gives 0 with a syntax error; a
literal that rounds to an infinity gives that infinity with a range error. -/
def ParseFloat64 (R : Rounding) (s : String) : Float64 × Option NumErr :=
  match special s.toList with
  | some (v, rest) => if rest = [] then (v, none) else (Float64.zero, some NumErr.ErrSyntax)
  | none =>
    match readFloat s.toList with
    | none => (Float64.zero, some NumErr.ErrSyntax)
    | some (lit, rest) =>
      if rest ≠ [] then (Float64.zero, some NumErr.ErrSyntax)
      else if lit.digits = 0 then (Float64.finite lit.neg 0 0, none)
      else if overflows (if lit.hex then 2 else 10) lit.digits lit.exp then
        (Float64.inf lit.neg, some NumErr.ErrRange)
      else
        (Float64.finite lit.neg
          (R.nearest (if lit.hex then 2 else 10) lit.digits lit.exp).1
          (R.nearest (if lit.hex then 2 else 10) lit.digits lit.exp).2, none)

/-- Division of float64 values. -/
def Float64.div (R : Rounding) : Float64 → Float64 → Float64
  | Float64.nan, _ => Float64.nan
  | _, Float64.nan => Float64.nan
  | Float64.inf _, Float64.inf _ => Float64.nan
  | Float64.inf a, Float64.finite b _ _ => Float64.inf (a != b)
  | Float64.finite a _ _, Float64.inf b => Float64.finite (a != b) 0 0
  | Float64.finite a m e, Float64.finite b m2 e2 =>
    if m2 = 0 then (if m = 0 then Float64.nan else Float64.inf (a != b))
    else if m = 0 then Float64.finite (a != b) 0 0
    else Float64.finite (a != b) (R.quotient m e m2 e2).1 (R.quotient m e m2 e2).2

/-- Whether `encoding/json` encodes a float64: not NaN and not an infinity. -/
def Float64.isFinite : Float64 → Bool
  | Float64.finite _ _ _ => true
  | _ => false

/-- The float64 library of Go over a rounding. -/
@[reducible]
def goFloat (R : Rounding) : FloatLib :=
  { F := Float64
    ParseFloat := fun s => ((ParseFloat64 R s).1, (ParseFloat64 R s).2.isSome)
    fdiv := Float64.div R
    ofNat := fun n => Float64.finite false n 0
    encodable := Float64.isFinite }

/-- A rounding that keeps integers and their quotients by 1 and by 1048576, and
gives 0 elsewhere; it serves to evaluate concrete inputs. -/
def plainRounding : Rounding :=
  { nearest := fun b m e => if 0 ≤ e then (m * b ^ e.toNat, 0) else (0, 0)
    quotient := fun m e m2 e2 =>
      if m2 = 1 then (m, e - e2) else if m2 = 1048576 then (m, e - e2 - 20) else (0, 0) }

/-! ## `analyzer.go` -/

/-- Go `map[string]string` read access: a missing key reads as `""`. -/
def mapGet (m : List (String × String)) (k : String) : String :=
  (m.lookup k).getD ""

/-- Detail of one stream (`StreamDetail`).  `Tags = none` is the nil map. -/
structure StreamDetail where
  CodecName : String
  CodecType : String
  SampleRate : String
  BitRate : String
  Channels : Int
  ChannelLayout : String
  Tags : Option (List (String × String))
  deriving DecidableEq, Repr

/-- The `Format` section of `FFProbeResult`. -/
structure Format where
  Filename : String
  FormatName : String
  Size : String
  Duration : String
  ProbeScore : Int
  Tags : Option (List (String × String))
  deriving DecidableEq, Repr

/-- Parsed ffprobe output (`FFProbeResult`). -/
structure FFProbeResult where
  Format : Format
  Streams : List StreamDetail
  deriving DecidableEq, Repr

/-- The normalized record (`AudioMetadata`), over the float type `F`. -/
structure AudioMetadata (F : Type) where
  FileName : String
  ContainerFormat : String
  FileSizeMB : F
  DurationSec : F
  IntegritasScore : Int
  Codec : String
  SampleRateHz : Int
  BitRateKbps : Int
  ChannelLayout : String
  Title : String
  Artist : String
  Album : String
  Genre : String
  Year : String
  Track : String
  Composer : String
  Comment : String
  Copyright : String

/-- `parseMetadata` (analyzer.go, lines 110-155).  The errors of the four
numeric conversions are discarded, as in the source. -/
def parseMetadata (L : FloatLib) (probeResult : FFProbeResult) (stream : StreamDetail) :
    AudioMetadata L.F :=
  let durationSec := (L.ParseFloat probeResult.Format.Duration).1
  let sizeBytes := (L.ParseFloat probeResult.Format.Size).1
  let sizeMB := L.fdiv sizeBytes (L.ofNat (1024 * 1024))
  let sampleRateHz := (Atoi stream.SampleRate).1
  let bitRate := (Atoi stream.BitRate).1
  let bitRateKbps := Int.tdiv bitRate 1000
  let metadata : AudioMetadata L.F :=
    { FileName := Base probeResult.Format.Filename
      ContainerFormat := probeResult.Format.FormatName
      FileSizeMB := sizeMB
      DurationSec := durationSec
      IntegritasScore := probeResult.Format.ProbeScore
      Codec := stream.CodecName
      SampleRateHz := sampleRateHz
      BitRateKbps := bitRateKbps
      ChannelLayout := stream.ChannelLayout
      Title := "", Artist := "", Album := "", Genre := "", Year := "", Track := ""
      Composer := "", Comment := "", Copyright := "" }
  let metadata : AudioMetadata L.F :=
    match stream.Tags with
    | some tags =>
      { metadata with
        Title := mapGet tags "title"
        Artist := mapGet tags "artist"
        Album := mapGet tags "album"
        Genre := mapGet tags "genre"
        Year := mapGet tags "year"
        Track := mapGet tags "track"
        Composer := mapGet tags "composer"
        Comment := mapGet tags "comment"
        Copyright := mapGet tags "copyright" }
    | none => metadata
  match probeResult.Format.Tags with
  | some ftags =>
    if metadata.Title = "" then
      { metadata with
        Title := mapGet ftags "title"
        Artist := mapGet ftags "artist"
        Album := mapGet ftags "album" }
    else metadata
  | none => metadata

/-- The stream search loop of `AnalyzeAudio` (lines 93-99): the first stream, in
list order, whose codec type is `"audio"`; `none` is the nil pointer. -/
def findAudioStream : List StreamDetail → Option StreamDetail
  | [] => none
  | s :: rest => if s.CodecType = "audio" then some s else findAudioStream rest

/-- What `AnalyzeAudio` obtains from outside the process: `LookPath` is the
error of `exec.LookPath("ffprobe")` (`none` when the tool is found), `Output` the
result of running the ffprobe command on a path (its standard output, or the
text of the error), `Unmarshal` the result of `json.Unmarshal` on that output. -/
structure ProbeEnv where
  LookPath : Option String
  Output : String → Except String String
  Unmarshal : String → Except String FFProbeResult

/-- `AnalyzeAudio` (analyzer.go, lines 67-107).  `handleError` panics with its
message: `Except.error m` is a panic with value `m`, which ends the function at
once. -/
def AnalyzeAudio (L : FloatLib) (env : ProbeEnv) (filePath : String) :
    Except String (AudioMetadata L.F) :=
  match env.LookPath with
  | some _ =>
    Except.error "Perintah ffprobe tidak ditemukan. Pastikan FFmpeg terinstal di sistem PATH."
  | none =>
    match env.Output filePath with
    | Except.error err => Except.error ("Gagal menjalankan ffprobe: " ++ err)
    | Except.ok output =>
      match env.Unmarshal output with
      | Except.error err => Except.error ("Gagal mengurai output JSON dari ffprobe: " ++ err)
      | Except.ok result =>
        match findAudioStream result.Streams with
        | none => Except.error "Tidak ditemukan stream audio dalam file."
        | some audioStream => Except.ok (parseMetadata L result audioStream)

/-! ## `main.go` -/

/-- The constant `maxConcurrentFFProbe`: capacity of `workerPool` in `main`. -/
def maxConcurrentFFProbe : Nat := 10

/-- Error envelope (`ResponseError`). -/
structure ResponseError where
  Status : String
  Message : String
  deriving DecidableEq, Repr

/-- Success envelope (`ResponseSuccess`). -/
structure ResponseSuccess (F : Type) where
  Status : String
  Data : AudioMetadata F

/-- The JSON document encoded into the response; `empty` is a response whose
body was never written. -/
inductive Body (F : Type) where
  | error (resp : ResponseError)
  | success (resp : ResponseSuccess F)
  | empty

/-- One response written to the `http.ResponseWriter`: the content type header,
the status code of `WriteHeader`, and the encoded body. -/
structure Written (F : Type) where
  ContentType : String
  StatusCode : Nat
  Body : Body F

/-- The state a handler invocation acts on.  `workerPool` is the number of
tokens buffered in the channel; `sends` and `receives` count the channel
operations performed, `probes` the invocations of `AnalyzeAudio`; `w` is what was
written to the response writer and `logs` what was logged. -/
structure World (F : Type) where
  workerPool : Nat
  sends : Nat
  receives : Nat
  probes : Nat
  w : List (Written F)
  logs : List String

/-- The request data the handler reads: the method and the parsed query
(`url.Values`). -/
structure Request where
  Method : String
  Query : List (String × List String)
  deriving DecidableEq, Repr

/-- Query parameter access (`url.Values.Get`): the first value of the key, or
`""` when the key has no value. -/
def Request.Get (r : Request) (key : String) : String :=
  match r.Query.lookup key with
  | some (v :: _) => v
  | _ => ""

/-- Everything outside the process: `NotExist p` is `os.IsNotExist(err)` for the
error of `os.Stat(p)`; `probe` is what `AnalyzeAudio` sees. -/
structure Env where
  NotExist : String → Bool
  probe : ProbeEnv

/-- `writeJSONError` (main.go, lines 96-105), on the list of responses written
to `w` so far. -/
def writeJSONError {F : Type} (w : List (Written F)) (message : String) (statusCode : Nat) :
    List (Written F) :=
  w ++ [{ ContentType := "application/json", StatusCode := statusCode,
          Body := Body.error { Status := "error", Message := message } }]

/-- `writeJSONSuccess` (main.go, lines 108-117).  The status 200 is written
first; `Encode` then fails, writing nothing, when one of the two float fields
cannot be encoded, and line 116 drops that error. -/
def writeJSONSuccess {F : Type} (encodable : F → Bool) (w : List (Written F))
    (data : AudioMetadata F) : List (Written F) :=
  w ++ [{ ContentType := "application/json", StatusCode := 200,
          Body :=
            if encodable data.FileSizeMB && encodable data.DurationSec then
              Body.success { Status := "success", Data := data }
            else Body.empty }]

/-- The channel send `workerPool <- struct{}{}` (line 56) on a channel of
capacity `K`: enabled only while fewer than `K` tokens are buffered; `none` means
the sender waits. -/
def acquire {F : Type} (K : Nat) (st : World F) : Option (World F) :=
  if st.workerPool < K then
    some { st with workerPool := st.workerPool + 1, sends := st.sends + 1 }
  else none

/-- The channel receive `<-workerPool` (line 61). -/
def release {F : Type} (st : World F) : World F :=
  { st with workerPool := st.workerPool - 1, receives := st.receives + 1 }

/-- A function body at the point where its deferred calls run: the state and the
panic value in flight, if any. -/
structure Frame (F : Type) where
  st : World F
  panicking : Option String

/-- The deferred function of lines 60-62: returns the token. -/
def deferRelease {F : Type} (fr : Frame F) : Frame F :=
  { fr with st := release fr.st }

/-- The deferred function of lines 79-87: `recover()` stops a panic in flight,
logs it and writes the 500 error envelope; without a panic it does nothing. -/
def deferRecover {F : Type} (fr : Frame F) : Frame F :=
  match fr.panicking with
  | some message =>
    let st := { fr.st with logs := fr.st.logs ++ ["Internal Panic/Error: " ++ message] }
    { st := { st with w := writeJSONError st.w message 500 }, panicking := none }
  | none => fr

/-- How an invocation of the handler ends: it returns, it is still waiting at the
channel send, or a panic leaves the handler. -/
inductive Outcome (F : Type) where
  | returned (st : World F)
  | blocked (st : World F)
  | panicked (st : World F) (message : String)

/-- Final state of an outcome. -/
def Outcome.st {F : Type} : Outcome F → World F
  | Outcome.returned st => st
  | Outcome.blocked st => st
  | Outcome.panicked st _ => st

/-- Outcome of a frame once every deferred call has run. -/
def Frame.exit {F : Type} (fr : Frame F) : Outcome F :=
  match fr.panicking with
  | some message => Outcome.panicked fr.st message
  | none => Outcome.returned fr.st

/-- `AnalyzeHandler` (main.go, lines 47-93) on a channel of capacity `K`.
The deferred calls run last-in first-out at function exit: on the two early
returns only the release is registered; after line 79 the recover runs first and
the release second. -/
def AnalyzeHandler (L : FloatLib) (K : Nat) (env : Env) (r : Request) (st : World L.F) :
    Outcome L.F :=
  if r.Method ≠ "GET" then
    Outcome.returned { st with w := writeJSONError st.w "Metode tidak didukung. Gunakan GET." 405 }
  else
    match acquire K st with
    | none => Outcome.blocked st
    | some st =>
      let filePath := r.Get "f"
      if filePath = "" then
        (deferRelease
          { st := { st with
                    w := writeJSONError st.w "Parameter 'f' (path file) harus disediakan." 400 },
            panicking := none }).exit
      else if env.NotExist filePath then
        (deferRelease
          { st := { st with
                    w := writeJSONError st.w
                      ("File tidak ditemukan di path server: " ++ filePath) 404 },
            panicking := none }).exit
      else
        let st := { st with probes := st.probes + 1 }
        let body : Frame L.F :=
          match AnalyzeAudio L env.probe filePath with
          | Except.error message => { st := st, panicking := some message }
          | Except.ok metadata =>
            { st := { st with w := writeJSONSuccess L.encodable st.w metadata },
              panicking := none }
        (deferRelease (deferRecover body)).exit

/-! ## Concurrent requests

Each request runs `AnalyzeHandler` as the sequence of steps method check, acquire,
parameter check, file check, probe, respond, release.  The requests share the
channel; a schedule names, step by step, the request that moves next. -/

/-- Control point of one request inside `AnalyzeHandler`. -/
inductive Pc (F : Type) where
  | received
  | atAcquire
  | admitted
  | fileCheck
  | probing
  | responding (result : Except String (AudioMetadata F))
  | releasing
  | done

/-- One request in flight: its data, its control point and what it has written to
its response writer. -/
structure Proc (F : Type) where
  req : Request
  pc : Pc F
  w : List (Written F)

/-- One step of one request on a channel of capacity `K` holding `tokens`
tokens.  A request waiting at a channel operation that is not enabled, and a
finished request, do not move. -/
def stepProc (L : FloatLib) (K : Nat) (env : Env) (tokens : Nat) (p : Proc L.F) :
    Nat × Proc L.F :=
  match p.pc with
  | Pc.received =>
    if p.req.Method ≠ "GET" then
      (tokens, { p with pc := Pc.done,
                        w := writeJSONError p.w "Metode tidak didukung. Gunakan GET." 405 })
    else (tokens, { p with pc := Pc.atAcquire })
  | Pc.atAcquire =>
    if tokens < K then (tokens + 1, { p with pc := Pc.admitted }) else (tokens, p)
  | Pc.admitted =>
    if p.req.Get "f" = "" then
      (tokens, { p with pc := Pc.releasing,
                        w := writeJSONError p.w "Parameter 'f' (path file) harus disediakan." 400 })
    else (tokens, { p with pc := Pc.fileCheck })
  | Pc.fileCheck =>
    if env.NotExist (p.req.Get "f") then
      (tokens, { p with pc := Pc.releasing,
                        w := writeJSONError p.w
                          ("File tidak ditemukan di path server: " ++ p.req.Get "f") 404 })
    else (tokens, { p with pc := Pc.probing })
  | Pc.probing =>
    (tokens, { p with pc := Pc.responding (AnalyzeAudio L env.probe (p.req.Get "f")) })
  | Pc.responding (Except.error message) =>
    (tokens, { p with pc := Pc.releasing, w := writeJSONError p.w message 500 })
  | Pc.responding (Except.ok metadata) =>
    (tokens, { p with pc := Pc.releasing, w := writeJSONSuccess L.encodable p.w metadata })
  | Pc.releasing =>
    if 0 < tokens then (tokens - 1, { p with pc := Pc.done }) else (tokens, p)
  | Pc.done => (tokens, p)

/-- The request at position `i` takes one step; a position past the end moves
nothing. -/
def stepAt (L : FloatLib) (K : Nat) (env : Env) :
    Nat → Nat → List (Proc L.F) → Nat × List (Proc L.F)
  | _, tokens, [] => (tokens, [])
  | 0, tokens, p :: ps => ((stepProc L K env tokens p).1, (stepProc L K env tokens p).2 :: ps)
  | i + 1, tokens, p :: ps =>
    ((stepAt L K env i tokens ps).1, p :: (stepAt L K env i tokens ps).2)

/-- Run a schedule from a state of the channel and the requests. -/
def run (L : FloatLib) (K : Nat) (env : Env) :
    List Nat → Nat × List (Proc L.F) → Nat × List (Proc L.F)
  | [], s => s
  | i :: sched, s => run L K env sched (stepAt L K env i s.1 s.2)

/-- Initial state: an empty channel and every request just received. -/
def initial (F : Type) (reqs : List Request) : Nat × List (Proc F) :=
  (0, reqs.map (fun r => { req := r, pc := Pc.received, w := [] }))

/-- Whether a request is inside the probing invocation (`AnalyzeAudio`). -/
def Pc.isProbing {F : Type} : Pc F → Bool
  | Pc.probing => true
  | _ => false

/-- Whether a request holds a token: from the send of line 56 until the deferred
receive of line 61. -/
def Pc.holdsToken {F : Type} : Pc F → Bool
  | Pc.admitted => true
  | Pc.fileCheck => true
  | Pc.probing => true
  | Pc.responding _ => true
  | Pc.releasing => true
  | _ => false

/-- Number of requests inside the probing invocation. -/
def probingCount {F : Type} (ps : List (Proc F)) : Nat :=
  (ps.filter (fun p => p.pc.isProbing)).length

/-- Number of requests holding a token. -/
def holdingCount {F : Type} (ps : List (Proc F)) : Nat :=
  (ps.filter (fun p => p.pc.holdsToken)).length

/-- Token held by a control point, as a number. -/
def Pc.held {F : Type} (pc : Pc F) : Nat := if pc.holdsToken then 1 else 0

/-- Value of a key in an optional tag mapping: empty when the mapping is nil or
the key is missing. -/
def tagOf (tags : Option (List (String × String))) (k : String) : String :=
  match tags with
  | some m => mapGet m k
  | none => ""

/-- Value of a digit sequence read left to right after the value `n`. -/
def decimalValue (cs : List Char) (n : Nat) : Nat :=
  cs.foldl (fun a c => a * 10 + subZero c) n

/-- A float library that carries no information; it serves to evaluate the text
and integer fields on concrete inputs. -/
def nullFloat : FloatLib :=
  { F := Unit, ParseFloat := fun _ => ((), true), fdiv := fun _ _ => (), ofNat := fun _ => (),
    encodable := fun _ => true }

/-- A video stream without tags. -/
def videoStream : StreamDetail :=
  { CodecName := "h264", CodecType := "video", SampleRate := "", BitRate := "", Channels := 0,
    ChannelLayout := "", Tags := none }

/-- An AAC audio stream with a title tag. -/
def aacStream : StreamDetail :=
  { CodecName := "aac", CodecType := "audio", SampleRate := "44100", BitRate := "128000",
    Channels := 2, ChannelLayout := "stereo", Tags := some [("title", "T")] }

/-- A format section without tags. -/
def plainFormat : Format :=
  { Filename := "/music/song.m4a", FormatName := "mov,mp4,m4a,3gp,3g2,mj2", Size := "2097152",
    Duration := "10.5", ProbeScore := 100, Tags := none }

/-- Probe result with a video stream followed by an audio stream. -/
def songResult : FFProbeResult := { Format := plainFormat, Streams := [videoStream, aacStream] }

/-- Probe result without any audio stream. -/
def videoOnlyResult : FFProbeResult := { Format := plainFormat, Streams := [videoStream] }

/-- An environment in which `/missing.mp3` does not exist, ffprobe fails on
`/broken.mp3`, prints `song` for `/music/song.m4a`, `video` for `/video.mp4` and
unparsable output for every other path. -/
def sampleEnv : Env :=
  { NotExist := fun p => decide (p = "/missing.mp3")
    probe :=
      { LookPath := none
        Output := fun p =>
          if p = "/broken.mp3" then Except.error "exit status 1"
          else if p = "/music/song.m4a" then Except.ok "song"
          else if p = "/video.mp4" then Except.ok "video"
          else Except.ok ""
        Unmarshal := fun out =>
          if out = "song" then Except.ok songResult
          else if out = "video" then Except.ok videoOnlyResult
          else Except.error "unexpected end of JSON input" } }

/-- The environment of `sampleEnv` on a host without ffprobe. -/
def noToolEnv : Env :=
  { sampleEnv with probe := { sampleEnv.probe with LookPath := some "executable file not found in $PATH" } }

/-- A GET request with the given value of `f`. -/
def getRequest (f : String) : Request := { Method := "GET", Query := [("f", [f])] }

/-- A GET request without any query parameter. -/
def bareRequest : Request := { Method := "GET", Query := [] }

/-- A POST request. -/
def postRequest : Request := { Method := "POST", Query := [("f", ["/music/song.m4a"])] }

/-- A state with `n` tokens outstanding and nothing written. -/
def worldWith (n : Nat) : World Unit :=
  { workerPool := n, sends := 0, receives := 0, probes := 0, w := [], logs := [] }

/-- An audio stream without a tag mapping. -/
def untaggedStream : StreamDetail := { aacStream with Tags := none }

/-- An audio stream whose only tag is the artist. -/
def artistOnlyStream : StreamDetail := { aacStream with Tags := some [("artist", "X")] }

/-- A probe result whose format section carries a title and an artist. -/
def taggedFormatResult : FFProbeResult :=
  { Format := { plainFormat with Tags := some [("title", "A"), ("artist", "B")] },
    Streams := [untaggedStream] }

/-- An audio stream whose sample rate and bit rate are digit strings beyond the
`int64` range. -/
def saturatedStream : StreamDetail :=
  { aacStream with SampleRate := "99999999999999999999", BitRate := "99999999999999999999" }

/-- A probe result whose duration and size are well-formed numbers beyond the
float64 range. -/
def overflowResult : FFProbeResult :=
  { Format := { plainFormat with Duration := "1e999", Size := "-1e999" },
    Streams := [saturatedStream] }

/-- A probe result whose duration is empty and whose size is not a number. -/
def unparsableResult : FFProbeResult :=
  { Format := { plainFormat with Duration := "", Size := "abc" }, Streams := [aacStream] }

/-- The environment of `sampleEnv` in which ffprobe reports the out-of-range
duration and size of `overflowResult` for every file. -/
def overflowEnv : Env :=
  { sampleEnv with
    probe := { sampleEnv.probe with Unmarshal := fun _ => Except.ok overflowResult } }

/-- Whether a written response has no body. -/
def Written.hasEmptyBody {F : Type} (x : Written F) : Bool :=
  match x.Body with
  | Body.empty => true
  | _ => false

/-! ## The admission gate under interleaving -/

theorem holdingCount_cons {F : Type} (p : Proc F) (ps : List (Proc F)) :
    holdingCount (p :: ps) = p.pc.held + holdingCount ps := by
  unfold holdingCount Pc.held
  by_cases h : p.pc.holdsToken = true
  · simp [List.filter_cons, h]; omega
  · simp [List.filter_cons, h]

theorem probingCount_le_holdingCount {F : Type} (ps : List (Proc F)) :
    probingCount ps ≤ holdingCount ps := by
  induction ps with
  | nil => simp [probingCount, holdingCount]
  | cons p ps ih =>
    rw [holdingCount_cons]
    have hp : probingCount (p :: ps) = (if p.pc.isProbing then 1 else 0) + probingCount ps := by
      unfold probingCount
      by_cases h : p.pc.isProbing = true
      · simp [List.filter_cons, h]; omega
      · simp [List.filter_cons, h]
    rw [hp]
    have : (if p.pc.isProbing then 1 else 0) ≤ p.pc.held := by
      unfold Pc.held
      cases hpc : p.pc <;> simp [Pc.isProbing, Pc.holdsToken]
    omega

/-- A step of one request changes the channel exactly by the token it takes or
returns, and never fills the channel beyond its capacity. -/
theorem stepProc_tokens (L : FloatLib) (K : Nat) (env : Env) (tokens : Nat) (p : Proc L.F) :
    (stepProc L K env tokens p).1 + p.pc.held = tokens + (stepProc L K env tokens p).2.pc.held ∧
    (tokens ≤ K → (stepProc L K env tokens p).1 ≤ K) := by
  unfold stepProc
  cases hpc : p.pc with
  | received => by_cases h : p.req.Method = "GET" <;> simp [h, Pc.held, Pc.holdsToken]
  | atAcquire =>
    by_cases h : tokens < K
    · simp [h, Pc.held, Pc.holdsToken]; omega
    · simp [h, Pc.held, Pc.holdsToken, hpc]
  | admitted => by_cases h : p.req.Get "f" = "" <;> simp [h, Pc.held, Pc.holdsToken]
  | fileCheck =>
    by_cases h : env.NotExist (p.req.Get "f") = true <;> simp [h, Pc.held, Pc.holdsToken]
  | probing => simp [Pc.held, Pc.holdsToken]
  | responding r => cases r <;> simp [Pc.held, Pc.holdsToken]
  | releasing =>
    by_cases h : 0 < tokens
    · simp [h, Pc.held, Pc.holdsToken]; omega
    · simp [h, Pc.held, Pc.holdsToken, hpc]
  | done => simp [Pc.held, Pc.holdsToken, hpc]

theorem stepAt_tokens (L : FloatLib) (K : Nat) (env : Env) (i tokens : Nat)
    (ps : List (Proc L.F)) :
    (stepAt L K env i tokens ps).1 + holdingCount ps =
        tokens + holdingCount (stepAt L K env i tokens ps).2 ∧
    (tokens ≤ K → (stepAt L K env i tokens ps).1 ≤ K) := by
  induction ps generalizing i with
  | nil => cases i <;> simp [stepAt]
  | cons p ps ih =>
    cases i with
    | zero =>
      have h := stepProc_tokens L K env tokens p
      simp only [stepAt, holdingCount_cons]
      exact ⟨by omega, h.2⟩
    | succ j =>
      have h := ih j
      simp only [stepAt, holdingCount_cons]
      exact ⟨by omega, h.2⟩

/-- Along every schedule the channel holds exactly one token per request between
its send and its receive, and at most `K` tokens. -/
theorem run_tokens (L : FloatLib) (K : Nat) (env : Env) (sched : List Nat)
    (s : Nat × List (Proc L.F)) (h1 : s.1 = holdingCount s.2) (h2 : s.1 ≤ K) :
    (run L K env sched s).1 = holdingCount (run L K env sched s).2 ∧
    (run L K env sched s).1 ≤ K := by
  induction sched generalizing s with
  | nil => exact ⟨h1, h2⟩
  | cons i sched ih =>
    have h := stepAt_tokens L K env i s.1 s.2
    exact ih (stepAt L K env i s.1 s.2) (by omega) (h.2 h2)

theorem holdingCount_initial (F : Type) (reqs : List Request) :
    holdingCount (initial F reqs).2 = 0 := by
  induction reqs with
  | nil => rfl
  | cons r reqs ih =>
    have : (initial F (r :: reqs)).2 =
        { req := r, pc := Pc.received, w := [] } :: (initial F reqs).2 := rfl
    rw [this, holdingCount_cons, ih]
    rfl

/-- C1: for every capacity `K` (in particular every `K ≥ 1`), every list of
requests and every interleaving of their steps, the state reached has at most `K`
requests inside the probing invocation, the channel never holds more than `K`
tokens, and the tokens are exactly the ones held by the requests between their
acquire and their release. -/
theorem admission_gate_bound (L : FloatLib) (K : Nat) (env : Env) (reqs : List Request)
    (sched : List Nat) :
    probingCount (run L K env sched (initial L.F reqs)).2 ≤ K ∧
    (run L K env sched (initial L.F reqs)).1 ≤ K ∧
    (run L K env sched (initial L.F reqs)).1 =
      holdingCount (run L K env sched (initial L.F reqs)).2 := by
  have h := run_tokens L K env sched (initial L.F reqs)
    (by rw [holdingCount_initial]; rfl) (Nat.zero_le K)
  have hp := probingCount_le_holdingCount (run L K env sched (initial L.F reqs)).2
  exact ⟨by omega, h.2, h.1⟩

/-- The bound of C1 is attained: with capacity 2 and three requests for an
existing file, two are inside the probing invocation while the third waits at the
channel send. -/
theorem admission_gate_bound_attained :
    probingCount (run nullFloat 2 sampleEnv [0, 0, 0, 0, 1, 1, 1, 1, 2, 2, 2, 2]
      (initial Unit [getRequest "/music/song.m4a", getRequest "/music/song.m4a",
        getRequest "/music/song.m4a"])).2 = 2 ∧
    (run nullFloat 2 sampleEnv [0, 0, 0, 0, 1, 1, 1, 1, 2, 2, 2, 2]
      (initial Unit [getRequest "/music/song.m4a", getRequest "/music/song.m4a",
        getRequest "/music/song.m4a"])).1 = 2 := by
  decide

/-! ## Validation under interleaving -/

/-- The step sequence of one request, run alone from a channel with a free slot,
writes what `AnalyzeHandler` writes and leaves the token count unchanged. -/
theorem run_single_request (L : FloatLib) (K : Nat) (env : Env) (r : Request)
    (st : World L.F) (hK : st.workerPool < K) :
    run L K env [0, 0, 0, 0, 0, 0, 0]
        (st.workerPool, [{ req := r, pc := Pc.received, w := st.w }]) =
      (st.workerPool,
        [{ req := r, pc := Pc.done, w := (AnalyzeHandler L K env r st).st.w }]) := by
  unfold AnalyzeHandler
  by_cases hm : r.Method = "GET"
  · by_cases hf : r.Get "f" = ""
    · simp [run, stepAt, stepProc, hm, hf, hK, acquire, deferRelease, release, Frame.exit,
        Outcome.st]
    · by_cases hn : env.NotExist (r.Get "f") = true
      · simp [run, stepAt, stepProc, hm, hf, hn, hK, acquire, deferRelease, release,
          Frame.exit, Outcome.st]
      · cases hp : AnalyzeAudio L env.probe (r.Get "f") <;>
          simp [run, stepAt, stepProc, hm, hf, hn, hp, hK, acquire, deferRelease,
            deferRecover, release, Frame.exit, Outcome.st]
  · simp [run, stepAt, stepProc, hm, Outcome.st]


/-- C2: a request that is admitted (method GET, a free slot in the channel)
returns with the token count it started from, after exactly one send and one
receive on the channel, whatever the parameter, the file system and
`AnalyzeAudio` do (rejection 400, rejection 404, panic, success); a request
rejected for its method performs no channel operation. -/
theorem token_released_exactly_once (L : FloatLib) (K : Nat) (env : Env) (r : Request)
    (st : World L.F) :
    (r.Method = "GET" → st.workerPool < K →
      AnalyzeHandler L K env r st = Outcome.returned (AnalyzeHandler L K env r st).st ∧
      (AnalyzeHandler L K env r st).st.workerPool = st.workerPool ∧
      (AnalyzeHandler L K env r st).st.sends = st.sends + 1 ∧
      (AnalyzeHandler L K env r st).st.receives = st.receives + 1) ∧
    (r.Method ≠ "GET" →
      AnalyzeHandler L K env r st = Outcome.returned (AnalyzeHandler L K env r st).st ∧
      (AnalyzeHandler L K env r st).st.workerPool = st.workerPool ∧
      (AnalyzeHandler L K env r st).st.sends = st.sends ∧
      (AnalyzeHandler L K env r st).st.receives = st.receives) := by
  constructor
  · intro hm hK
    unfold AnalyzeHandler
    simp only [hm, ne_eq, not_true_eq_false, if_false, acquire, hK, if_true]
    by_cases hf : r.Get "f" = ""
    · simp [hf, deferRelease, release, Frame.exit, Outcome.st]
    · by_cases hn : env.NotExist (r.Get "f") = true
      · simp [hf, hn, deferRelease, release, Frame.exit, Outcome.st]
      · cases hp : AnalyzeAudio L env.probe (r.Get "f") <;>
          simp [hf, hn, hp, deferRelease, deferRecover, release, Frame.exit, Outcome.st]
  · intro hm
    unfold AnalyzeHandler
    simp [hm, Outcome.st]

/-- A success whose metadata holds an infinity is sent as status 200 with an empty
body (the error of `Encode` is dropped); the token is returned all the same. -/
theorem success_with_infinite_duration :
    (AnalyzeHandler (goFloat plainRounding) 10 overflowEnv (getRequest "/music/song.m4a")
        { workerPool := 3, sends := 0, receives := 0, probes := 0, w := [], logs := [] }).st.w.map
      (fun x => (x.StatusCode, x.hasEmptyBody)) = [(200, true)] ∧
    (AnalyzeHandler (goFloat plainRounding) 10 overflowEnv (getRequest "/music/song.m4a")
        { workerPool := 3, sends := 0, receives := 0, probes := 0, w := [],
          logs := [] }).st.workerPool = 3 := by
  decide

/-- Witness of C2 on the four ways an admitted request ends (status 400, 404, 500
and 200) with three tokens outstanding, and on a POST request. -/
theorem token_released_exactly_once_witness :
    ((AnalyzeHandler nullFloat 10 sampleEnv bareRequest (worldWith 3)).st.w.map
        (fun x => x.StatusCode) = [400] ∧
      (AnalyzeHandler nullFloat 10 sampleEnv bareRequest (worldWith 3)).st.workerPool = 3) ∧
    ((AnalyzeHandler nullFloat 10 sampleEnv (getRequest "/missing.mp3") (worldWith 3)).st.w.map
        (fun x => x.StatusCode) = [404] ∧
      (AnalyzeHandler nullFloat 10 sampleEnv (getRequest "/missing.mp3")
        (worldWith 3)).st.workerPool = 3) ∧
    ((AnalyzeHandler nullFloat 10 sampleEnv (getRequest "/broken.mp3") (worldWith 3)).st.w.map
        (fun x => x.StatusCode) = [500] ∧
      (AnalyzeHandler nullFloat 10 sampleEnv (getRequest "/broken.mp3")
        (worldWith 3)).st.workerPool = 3) ∧
    ((AnalyzeHandler nullFloat 10 sampleEnv (getRequest "/music/song.m4a") (worldWith 3)).st.w.map
        (fun x => x.StatusCode) = [200] ∧
      (AnalyzeHandler nullFloat 10 sampleEnv (getRequest "/music/song.m4a")
        (worldWith 3)).st.workerPool = 3) ∧
    (AnalyzeHandler nullFloat 10 sampleEnv postRequest (worldWith 3)).st.sends = 0 :=
  ⟨⟨by decide,
    ((token_released_exactly_once nullFloat 10 sampleEnv bareRequest (worldWith 3)).1
      (by decide) (by decide)).2.1⟩,
   ⟨by decide,
    ((token_released_exactly_once nullFloat 10 sampleEnv (getRequest "/missing.mp3")
      (worldWith 3)).1 (by decide) (by decide)).2.1⟩,
   ⟨by decide,
    ((token_released_exactly_once nullFloat 10 sampleEnv (getRequest "/broken.mp3")
      (worldWith 3)).1 (by decide) (by decide)).2.1⟩,
   ⟨by decide,
    ((token_released_exactly_once nullFloat 10 sampleEnv (getRequest "/music/song.m4a")
      (worldWith 3)).1 (by decide) (by decide)).2.1⟩,
   ((token_released_exactly_once nullFloat 10 sampleEnv postRequest (worldWith 3)).2
      (by decide)).2.2.1⟩

/-- The four failures of `AnalyzeAudio` and their messages. -/
theorem AnalyzeAudio_failures (L : FloatLib) (env : ProbeEnv) (filePath : String) :
    (∀ e, env.LookPath = some e →
      AnalyzeAudio L env filePath = Except.error
        "Perintah ffprobe tidak ditemukan. Pastikan FFmpeg terinstal di sistem PATH.") ∧
    (∀ e, env.LookPath = none → env.Output filePath = Except.error e →
      AnalyzeAudio L env filePath = Except.error ("Gagal menjalankan ffprobe: " ++ e)) ∧
    (∀ out e, env.LookPath = none → env.Output filePath = Except.ok out →
      env.Unmarshal out = Except.error e →
      AnalyzeAudio L env filePath =
        Except.error ("Gagal mengurai output JSON dari ffprobe: " ++ e)) := by
  refine ⟨?_, ?_, ?_⟩
  · intro e h; simp [AnalyzeAudio, h]
  · intro e h1 h2; simp [AnalyzeAudio, h1, h2]
  · intro out e h1 h2 h3; simp [AnalyzeAudio, h1, h2, h3]

theorem findAudioStream_eq_none (streams : List StreamDetail) :
    findAudioStream streams = none ↔ ∀ x ∈ streams, x.CodecType ≠ "audio" := by
  induction streams with
  | nil => simp [findAudioStream]
  | cons s rest ih =>
    by_cases h : s.CodecType = "audio"
    · simp [findAudioStream, h]
    · simp [findAudioStream, h, ih]

theorem findAudioStream_first (pre : List StreamDetail) (s : StreamDetail)
    (post : List StreamDetail) (hs : s.CodecType = "audio")
    (hpre : ∀ x ∈ pre, x.CodecType ≠ "audio") :
    findAudioStream (pre ++ s :: post) = some s := by
  induction pre with
  | nil => simp [findAudioStream, hs]
  | cons p pre ih =>
    have hp : p.CodecType ≠ "audio" := hpre p (List.mem_cons_self p pre)
    have := ih (fun x hx => hpre x (List.mem_cons_of_mem p hx))
    simp [findAudioStream, hp, this]

/-- C3: when the request passed validation and was admitted, every failure that
`AnalyzeAudio` raises with message `m` makes the handler return (no panic leaves
it) after writing exactly one response, the error envelope with status 500 and
message `m`, and with the token returned.  The four failures of the probing path
(tool not found, invocation failed, malformed output, no audio stream) are of
that kind: a result without audio stream fails with the message
`Tidak ditemukan stream audio dalam file.` -/
theorem probe_failure_is_500 (L : FloatLib) (K : Nat) (env : Env) (r : Request)
    (st : World L.F) (hm : r.Method = "GET") (hK : st.workerPool < K)
    (hf : r.Get "f" ≠ "") (hn : env.NotExist (r.Get "f") = false) :
    (∀ m, AnalyzeAudio L env.probe (r.Get "f") = Except.error m →
      AnalyzeHandler L K env r st = Outcome.returned (AnalyzeHandler L K env r st).st ∧
      (AnalyzeHandler L K env r st).st.w = st.w ++
        [{ ContentType := "application/json", StatusCode := 500,
           Body := Body.error { Status := "error", Message := m } }] ∧
      (AnalyzeHandler L K env r st).st.workerPool = st.workerPool) ∧
    (∀ e, env.probe.LookPath = some e →
      AnalyzeAudio L env.probe (r.Get "f") = Except.error
        "Perintah ffprobe tidak ditemukan. Pastikan FFmpeg terinstal di sistem PATH.") ∧
    (∀ e, env.probe.LookPath = none → env.probe.Output (r.Get "f") = Except.error e →
      AnalyzeAudio L env.probe (r.Get "f") = Except.error ("Gagal menjalankan ffprobe: " ++ e)) ∧
    (∀ out e, env.probe.LookPath = none → env.probe.Output (r.Get "f") = Except.ok out →
      env.probe.Unmarshal out = Except.error e →
      AnalyzeAudio L env.probe (r.Get "f") =
        Except.error ("Gagal mengurai output JSON dari ffprobe: " ++ e)) ∧
    (∀ out result, env.probe.LookPath = none → env.probe.Output (r.Get "f") = Except.ok out →
      env.probe.Unmarshal out = Except.ok result →
      (∀ x ∈ result.Streams, x.CodecType ≠ "audio") →
      AnalyzeAudio L env.probe (r.Get "f") =
        Except.error "Tidak ditemukan stream audio dalam file.") := by
  have hfail := AnalyzeAudio_failures L env.probe (r.Get "f")
  refine ⟨?_, hfail.1, hfail.2.1, hfail.2.2, ?_⟩
  · intro m hp
    unfold AnalyzeHandler
    simp [hm, acquire, hK, hf, hn, hp, deferRelease, deferRecover, release, Frame.exit,
      Outcome.st, writeJSONError]
  · intro out result h1 h2 h3 h4
    have h5 := (findAudioStream_eq_none result.Streams).2 h4
    simp [AnalyzeAudio, h1, h2, h3, h5]

/-- Witness of C3, one request per failure: ffprobe is not installed; ffprobe exits
with an error on `/broken.mp3`; the output for `/notes.txt` does not parse;
`/video.mp4` has no audio stream. -/
theorem probe_failure_is_500_witness :
    (AnalyzeHandler nullFloat 10 noToolEnv (getRequest "/music/song.m4a") (worldWith 3)).st.w =
      [{ ContentType := "application/json", StatusCode := 500,
         Body := Body.error
           { Status := "error",
             Message :=
               "Perintah ffprobe tidak ditemukan. Pastikan FFmpeg terinstal di sistem PATH." } }] ∧
    (AnalyzeHandler nullFloat 10 sampleEnv (getRequest "/broken.mp3") (worldWith 3)).st.w =
      [{ ContentType := "application/json", StatusCode := 500,
         Body := Body.error
           { Status := "error", Message := "Gagal menjalankan ffprobe: exit status 1" } }] ∧
    (AnalyzeHandler nullFloat 10 sampleEnv (getRequest "/notes.txt") (worldWith 3)).st.w =
      [{ ContentType := "application/json", StatusCode := 500,
         Body := Body.error
           { Status := "error",
             Message :=
               "Gagal mengurai output JSON dari ffprobe: unexpected end of JSON input" } }] ∧
    (AnalyzeHandler nullFloat 10 sampleEnv (getRequest "/video.mp4") (worldWith 3)).st.w =
      [{ ContentType := "application/json", StatusCode := 500,
         Body := Body.error
           { Status := "error", Message := "Tidak ditemukan stream audio dalam file." } }] :=
  ⟨((probe_failure_is_500 nullFloat 10 noToolEnv (getRequest "/music/song.m4a") (worldWith 3)
      (by decide) (by decide) (by decide) (by decide)).1
      "Perintah ffprobe tidak ditemukan. Pastikan FFmpeg terinstal di sistem PATH."
      ((probe_failure_is_500 nullFloat 10 noToolEnv (getRequest "/music/song.m4a")
        (worldWith 3) (by decide) (by decide) (by decide) (by decide)).2.1
        "executable file not found in $PATH" rfl)).2.1,
   ((probe_failure_is_500 nullFloat 10 sampleEnv (getRequest "/broken.mp3") (worldWith 3)
      (by decide) (by decide) (by decide) (by decide)).1
      "Gagal menjalankan ffprobe: exit status 1"
      ((probe_failure_is_500 nullFloat 10 sampleEnv (getRequest "/broken.mp3") (worldWith 3)
        (by decide) (by decide) (by decide) (by decide)).2.2.1 "exit status 1" rfl rfl)).2.1,
   ((probe_failure_is_500 nullFloat 10 sampleEnv (getRequest "/notes.txt") (worldWith 3)
      (by decide) (by decide) (by decide) (by decide)).1
      "Gagal mengurai output JSON dari ffprobe: unexpected end of JSON input"
      ((probe_failure_is_500 nullFloat 10 sampleEnv (getRequest "/notes.txt") (worldWith 3)
        (by decide) (by decide) (by decide) (by decide)).2.2.2.1 ""
        "unexpected end of JSON input" rfl rfl rfl)).2.1,
   ((probe_failure_is_500 nullFloat 10 sampleEnv (getRequest "/video.mp4") (worldWith 3)
      (by decide) (by decide) (by decide) (by decide)).1
      "Tidak ditemukan stream audio dalam file."
      ((probe_failure_is_500 nullFloat 10 sampleEnv (getRequest "/video.mp4") (worldWith 3)
        (by decide) (by decide) (by decide) (by decide)).2.2.2.2 "video" videoOnlyResult
        rfl rfl rfl (by decide))).2.1⟩

/-- The handler on a GET request without a usable `f` parameter, once admitted:
one 400 error envelope, no probe, and the token taken and returned. -/
theorem AnalyzeHandler_missing_parameter (L : FloatLib) (K : Nat) (env : Env) (r : Request)
    (st : World L.F) (hm : r.Method = "GET") (hf : r.Get "f" = "") (hK : st.workerPool < K) :
    AnalyzeHandler L K env r st = Outcome.returned
      { st with
        sends := st.sends + 1
        receives := st.receives + 1
        w := st.w ++
          [{ ContentType := "application/json", StatusCode := 400,
             Body := Body.error
              { Status := "error", Message := "Parameter 'f' (path file) harus disediakan." } }] } := by
  unfold AnalyzeHandler
  simp [hm, acquire, hK, hf, deferRelease, release, Frame.exit, writeJSONError]

/-- The handler on a GET request while the channel is full: it waits at the send
of line 56, before any other statement. -/
theorem AnalyzeHandler_full_gate (L : FloatLib) (K : Nat) (env : Env) (r : Request)
    (st : World L.F) (hm : r.Method = "GET") (hK : K ≤ st.workerPool) :
    AnalyzeHandler L K env r st = Outcome.blocked st := by
  unfold AnalyzeHandler
  simp [hm, acquire, Nat.not_lt.mpr hK]

/-- Counterexample to C10, with the capacity of `main`: a GET request without `f`
arriving while all 10 tokens are outstanding is left waiting at the channel send
and nothing is written; arriving at an empty channel it gets its 400 only after
one send on the channel, followed by one receive. -/
theorem parameter_check_after_admission :
    AnalyzeHandler nullFloat maxConcurrentFFProbe sampleEnv bareRequest
        (worldWith maxConcurrentFFProbe) = Outcome.blocked (worldWith maxConcurrentFFProbe) ∧
    (AnalyzeHandler nullFloat maxConcurrentFFProbe sampleEnv bareRequest
        (worldWith maxConcurrentFFProbe)).st.w = [] ∧
    (AnalyzeHandler nullFloat maxConcurrentFFProbe sampleEnv bareRequest
        (worldWith 0)).st.w.map (fun x => x.StatusCode) = [400] ∧
    (AnalyzeHandler nullFloat maxConcurrentFFProbe sampleEnv bareRequest
        (worldWith 0)).st.sends = 1 ∧
    (AnalyzeHandler nullFloat maxConcurrentFFProbe sampleEnv bareRequest
        (worldWith 0)).st.receives = 1 := by
  refine ⟨?_, ?_, ?_, ?_, ?_⟩
  · exact AnalyzeHandler_full_gate nullFloat maxConcurrentFFProbe sampleEnv bareRequest
      (worldWith maxConcurrentFFProbe) (by decide) (by decide)
  · rw [AnalyzeHandler_full_gate nullFloat maxConcurrentFFProbe sampleEnv bareRequest
      (worldWith maxConcurrentFFProbe) (by decide) (by decide)]
    rfl
  · decide
  · decide
  · decide

/-- C10 as amended: the token is acquired right after the method check and
before the parameter check.  A GET request whose `f` is absent or empty, arriving
while the channel has a free slot, performs one send, writes the 400 error
envelope, and performs one receive, leaving the token count as it found it;
arriving while all `K` tokens are outstanding it waits at the send and writes
nothing.  A request whose method is not GET performs no channel operation. -/
theorem admission_before_parameter_check (L : FloatLib) (K : Nat) (env : Env) (r : Request)
    (st : World L.F) :
    (r.Method = "GET" → r.Get "f" = "" → st.workerPool < K →
      AnalyzeHandler L K env r st = Outcome.returned
        { st with
          sends := st.sends + 1
          receives := st.receives + 1
          w := st.w ++
            [{ ContentType := "application/json", StatusCode := 400,
               Body := Body.error
                { Status := "error",
                  Message := "Parameter 'f' (path file) harus disediakan." } }] }) ∧
    (r.Method = "GET" → K ≤ st.workerPool →
      AnalyzeHandler L K env r st = Outcome.blocked st) ∧
    (r.Method ≠ "GET" →
      (AnalyzeHandler L K env r st).st.sends = st.sends ∧
      (AnalyzeHandler L K env r st).st.receives = st.receives ∧
      (AnalyzeHandler L K env r st).st.workerPool = st.workerPool) := by
  refine ⟨?_, ?_, ?_⟩
  · intro hm hf hK
    exact AnalyzeHandler_missing_parameter L K env r st hm hf hK
  · intro hm hK
    exact AnalyzeHandler_full_gate L K env r st hm hK
  · intro hm
    unfold AnalyzeHandler
    simp [hm, Outcome.st]

/-- Witness of the amended C10 at the capacity of `main`. -/
theorem admission_before_parameter_check_witness :
    (AnalyzeHandler nullFloat 10 sampleEnv bareRequest (worldWith 9)).st.sends = 1 ∧
    AnalyzeHandler nullFloat 10 sampleEnv bareRequest (worldWith 10) =
      Outcome.blocked (worldWith 10) ∧
    (AnalyzeHandler nullFloat 10 sampleEnv postRequest (worldWith 10)).st.sends = 0 :=
  ⟨by
    rw [(admission_before_parameter_check nullFloat 10 sampleEnv bareRequest (worldWith 9)).1
      (by decide) (by decide) (by decide)]
    rfl,
   (admission_before_parameter_check nullFloat 10 sampleEnv bareRequest (worldWith 10)).2.1
      (by decide) (by decide),
   ((admission_before_parameter_check nullFloat 10 sampleEnv postRequest (worldWith 10)).2.2
      (by decide)).1⟩

/-! ## Stream selection and tag resolution -/

theorem findAudioStream_some (streams : List StreamDetail) (s : StreamDetail)
    (h : findAudioStream streams = some s) :
    ∃ pre post, streams = pre ++ s :: post ∧ s.CodecType = "audio" ∧
      ∀ x ∈ pre, x.CodecType ≠ "audio" := by
  induction streams with
  | nil => simp [findAudioStream] at h
  | cons a rest ih =>
    by_cases ha : a.CodecType = "audio"
    · simp [findAudioStream, ha] at h
      subst h
      exact ⟨[], rest, rfl, ha, by simp⟩
    · simp [findAudioStream, ha] at h
      obtain ⟨pre, post, h1, h2, h3⟩ := ih h
      refine ⟨a :: pre, post, by simp [h1], h2, ?_⟩
      intro x hx
      rcases List.mem_cons.1 hx with hx | hx
      · subst hx; exact ha
      · exact h3 x hx

/-- The technical fields that `parseMetadata` takes from the selected stream. -/
theorem parseMetadata_stream_fields (L : FloatLib) (probeResult : FFProbeResult)
    (stream : StreamDetail) :
    (parseMetadata L probeResult stream).Codec = stream.CodecName ∧
    (parseMetadata L probeResult stream).SampleRateHz = (Atoi stream.SampleRate).1 ∧
    (parseMetadata L probeResult stream).BitRateKbps = Int.tdiv (Atoi stream.BitRate).1 1000 ∧
    (parseMetadata L probeResult stream).ChannelLayout = stream.ChannelLayout := by
  unfold parseMetadata
  cases hs : stream.Tags with
  | none =>
    cases hf : probeResult.Format.Tags with
    | none => simp
    | some ftags => simp
  | some tags =>
    cases hf : probeResult.Format.Tags with
    | none => simp
    | some ftags =>
      by_cases ht : mapGet tags "title" = ""
      · simp [ht]
      · simp [ht]

/-- The nine tag fields computed by `parseMetadata`. -/
theorem parseMetadata_tags (L : FloatLib) (probeResult : FFProbeResult)
    (stream : StreamDetail) :
    ((parseMetadata L probeResult stream).Genre = tagOf stream.Tags "genre" ∧
      (parseMetadata L probeResult stream).Year = tagOf stream.Tags "year" ∧
      (parseMetadata L probeResult stream).Track = tagOf stream.Tags "track" ∧
      (parseMetadata L probeResult stream).Composer = tagOf stream.Tags "composer" ∧
      (parseMetadata L probeResult stream).Comment = tagOf stream.Tags "comment" ∧
      (parseMetadata L probeResult stream).Copyright = tagOf stream.Tags "copyright") ∧
    (tagOf stream.Tags "title" ≠ "" ∨ probeResult.Format.Tags = none →
      (parseMetadata L probeResult stream).Title = tagOf stream.Tags "title" ∧
      (parseMetadata L probeResult stream).Artist = tagOf stream.Tags "artist" ∧
      (parseMetadata L probeResult stream).Album = tagOf stream.Tags "album") ∧
    (tagOf stream.Tags "title" = "" → ∀ ftags, probeResult.Format.Tags = some ftags →
      (parseMetadata L probeResult stream).Title = mapGet ftags "title" ∧
      (parseMetadata L probeResult stream).Artist = mapGet ftags "artist" ∧
      (parseMetadata L probeResult stream).Album = mapGet ftags "album") := by
  unfold parseMetadata
  cases hs : stream.Tags with
  | none =>
    cases hf : probeResult.Format.Tags with
    | none => simp [tagOf]
    | some ftags => simp [tagOf]
  | some tags =>
    cases hf : probeResult.Format.Tags with
    | none => simp [tagOf]
    | some ftags =>
      by_cases ht : mapGet tags "title" = ""
      · simp [tagOf, ht]
      · simp [tagOf, ht]

/-- C5: when ffprobe ran and its output parsed into `result`, the stream handed to
`parseMetadata` is the first element of `result.Streams` whose codec type is
`"audio"` (every earlier element has another codec type), and the codec, sample
rate, bit rate and channel layout of the output come from that element;
`AnalyzeAudio` fails with the no-audio-stream message exactly when no element
has codec type `"audio"`; and whenever some element is an audio stream there is
such a first element. -/
theorem first_audio_stream_selected (L : FloatLib) (env : ProbeEnv) (filePath out : String)
    (result : FFProbeResult) (h1 : env.LookPath = none)
    (h2 : env.Output filePath = Except.ok out) (h3 : env.Unmarshal out = Except.ok result) :
    (∀ pre s post, result.Streams = pre ++ s :: post → s.CodecType = "audio" →
      (∀ x ∈ pre, x.CodecType ≠ "audio") →
      AnalyzeAudio L env filePath = Except.ok (parseMetadata L result s) ∧
      (parseMetadata L result s).Codec = s.CodecName ∧
      (parseMetadata L result s).SampleRateHz = (Atoi s.SampleRate).1 ∧
      (parseMetadata L result s).BitRateKbps = Int.tdiv (Atoi s.BitRate).1 1000 ∧
      (parseMetadata L result s).ChannelLayout = s.ChannelLayout) ∧
    (AnalyzeAudio L env filePath = Except.error "Tidak ditemukan stream audio dalam file." ↔
      ∀ x ∈ result.Streams, x.CodecType ≠ "audio") ∧
    ((∃ x ∈ result.Streams, x.CodecType = "audio") →
      ∃ pre s post, result.Streams = pre ++ s :: post ∧ s.CodecType = "audio" ∧
        ∀ x ∈ pre, x.CodecType ≠ "audio") := by
  refine ⟨?_, ?_, ?_⟩
  · intro pre s post hdec hs hpre
    have hfind : findAudioStream result.Streams = some s := by
      rw [hdec]; exact findAudioStream_first pre s post hs hpre
    refine ⟨?_, parseMetadata_stream_fields L result s⟩
    simp [AnalyzeAudio, h1, h2, h3, hfind]
  · rw [← findAudioStream_eq_none]
    cases hfind : findAudioStream result.Streams with
    | none => simp [AnalyzeAudio, h1, h2, h3, hfind]
    | some s => simp [AnalyzeAudio, h1, h2, h3, hfind]
  · intro hex
    cases hfind : findAudioStream result.Streams with
    | none =>
      obtain ⟨x, hx, hxa⟩ := hex
      exact absurd hxa ((findAudioStream_eq_none result.Streams).1 hfind x hx)
    | some s =>
      obtain ⟨pre, post, h⟩ := findAudioStream_some result.Streams s hfind
      exact ⟨pre, s, post, h⟩

/-- Witness of C5: the streams `[video, audio(aac, 44100, 128000, title T)]`
select the second stream and give codec `aac`, 44100 Hz, 128 kbps and title
`T`. -/
theorem first_audio_stream_selected_witness :
    AnalyzeAudio nullFloat sampleEnv.probe "/music/song.m4a" =
      Except.ok (parseMetadata nullFloat songResult aacStream) ∧
    (parseMetadata nullFloat songResult aacStream).Codec = "aac" ∧
    (parseMetadata nullFloat songResult aacStream).SampleRateHz = 44100 ∧
    (parseMetadata nullFloat songResult aacStream).BitRateKbps = 128 ∧
    (parseMetadata nullFloat songResult aacStream).Title = "T" :=
  ⟨((first_audio_stream_selected nullFloat sampleEnv.probe "/music/song.m4a" "song" songResult
      rfl rfl rfl).1 [videoStream] aacStream [] rfl (by decide) (by decide)).1,
   ((first_audio_stream_selected nullFloat sampleEnv.probe "/music/song.m4a" "song" songResult
      rfl rfl rfl).1 [videoStream] aacStream [] rfl (by decide) (by decide)).2.1,
   by decide, by decide, by decide⟩

/-- C6: tag resolution in `parseMetadata`.  Genre, year, track, composer, comment
and copyright always are the stream-level values (empty when the stream has no
tag mapping or the key is missing), whatever the format-level tags are.  Title,
artist and album are the stream-level values when the stream-level title is not
empty or the format section has no tag mapping; when the stream-level title is
empty and the format section has a tag mapping, the three are the format-level
values of their keys. -/
theorem tag_resolution (L : FloatLib) (probeResult : FFProbeResult) (stream : StreamDetail) :
    ((parseMetadata L probeResult stream).Genre = tagOf stream.Tags "genre" ∧
      (parseMetadata L probeResult stream).Year = tagOf stream.Tags "year" ∧
      (parseMetadata L probeResult stream).Track = tagOf stream.Tags "track" ∧
      (parseMetadata L probeResult stream).Composer = tagOf stream.Tags "composer" ∧
      (parseMetadata L probeResult stream).Comment = tagOf stream.Tags "comment" ∧
      (parseMetadata L probeResult stream).Copyright = tagOf stream.Tags "copyright") ∧
    (tagOf stream.Tags "title" ≠ "" ∨ probeResult.Format.Tags = none →
      (parseMetadata L probeResult stream).Title = tagOf stream.Tags "title" ∧
      (parseMetadata L probeResult stream).Artist = tagOf stream.Tags "artist" ∧
      (parseMetadata L probeResult stream).Album = tagOf stream.Tags "album") ∧
    (tagOf stream.Tags "title" = "" → probeResult.Format.Tags ≠ none →
      (parseMetadata L probeResult stream).Title = tagOf probeResult.Format.Tags "title" ∧
      (parseMetadata L probeResult stream).Artist = tagOf probeResult.Format.Tags "artist" ∧
      (parseMetadata L probeResult stream).Album = tagOf probeResult.Format.Tags "album") ∧
    (∀ k, tagOf none k = "") ∧
    (∀ m k, m.lookup k = none → tagOf (some m) k = "") ∧
    (∀ m k v, m.lookup k = some v → tagOf (some m) k = v) := by
  have h := parseMetadata_tags L probeResult stream
  refine ⟨h.1, h.2.1, ?_, ?_, ?_, ?_⟩
  · intro ht hf
    cases hft : probeResult.Format.Tags with
    | none => exact absurd hft hf
    | some ftags => simpa [tagOf] using h.2.2 ht ftags hft
  · intro k; rfl
  · intro m k hk; simp [tagOf, mapGet, hk]
  · intro m k v hk; simp [tagOf, mapGet, hk]

/-- Witness of C6: a stream without tags and format tags `title: A, artist: B`
give title `A`, artist `B` and the seven other tag fields empty. -/
theorem tag_resolution_witness :
    ((parseMetadata nullFloat taggedFormatResult untaggedStream).Title = "A" ∧
      (parseMetadata nullFloat taggedFormatResult untaggedStream).Artist = "B" ∧
      (parseMetadata nullFloat taggedFormatResult untaggedStream).Album = "") ∧
    ((parseMetadata nullFloat taggedFormatResult untaggedStream).Genre = "" ∧
      (parseMetadata nullFloat taggedFormatResult untaggedStream).Year = "" ∧
      (parseMetadata nullFloat taggedFormatResult untaggedStream).Track = "" ∧
      (parseMetadata nullFloat taggedFormatResult untaggedStream).Composer = "" ∧
      (parseMetadata nullFloat taggedFormatResult untaggedStream).Comment = "" ∧
      (parseMetadata nullFloat taggedFormatResult untaggedStream).Copyright = "") :=
  ⟨(tag_resolution nullFloat taggedFormatResult untaggedStream).2.2.1 (by decide) (by decide),
   (tag_resolution nullFloat taggedFormatResult untaggedStream).1⟩

/-- Counterexample to C9: the selected stream has the non-empty tag `artist: X`
and no title, the format section has `title: A, artist: B`; the record gets the
format-level artist `B`, not the stream-level `X`. -/
theorem stream_artist_replaced :
    tagOf artistOnlyStream.Tags "artist" = "X" ∧
    (parseMetadata nullFloat taggedFormatResult artistOnlyStream).Artist = "B" ∧
    (parseMetadata nullFloat taggedFormatResult artistOnlyStream).Artist ≠
      tagOf artistOnlyStream.Tags "artist" := by
  decide

/-- C9 as amended: the stream-level tags are authoritative when the stream-level
title is not empty: then each of the nine tag fields is the stream-level value of
its key, whatever the format-level tag mapping contains.  Genre, year, track,
composer, comment and copyright are the stream-level values in every case.  When
the stream-level title is empty and the format section has a tag mapping, title,
artist and album are the format-level values, also when the stream-level artist
or album is not empty. -/
theorem stream_tags_authoritative_with_title (L : FloatLib) (probeResult : FFProbeResult)
    (stream : StreamDetail) :
    (tagOf stream.Tags "title" ≠ "" →
      (parseMetadata L probeResult stream).Title = tagOf stream.Tags "title" ∧
      (parseMetadata L probeResult stream).Artist = tagOf stream.Tags "artist" ∧
      (parseMetadata L probeResult stream).Album = tagOf stream.Tags "album" ∧
      (parseMetadata L probeResult stream).Genre = tagOf stream.Tags "genre" ∧
      (parseMetadata L probeResult stream).Year = tagOf stream.Tags "year" ∧
      (parseMetadata L probeResult stream).Track = tagOf stream.Tags "track" ∧
      (parseMetadata L probeResult stream).Composer = tagOf stream.Tags "composer" ∧
      (parseMetadata L probeResult stream).Comment = tagOf stream.Tags "comment" ∧
      (parseMetadata L probeResult stream).Copyright = tagOf stream.Tags "copyright") ∧
    ((parseMetadata L probeResult stream).Genre = tagOf stream.Tags "genre" ∧
      (parseMetadata L probeResult stream).Year = tagOf stream.Tags "year" ∧
      (parseMetadata L probeResult stream).Track = tagOf stream.Tags "track" ∧
      (parseMetadata L probeResult stream).Composer = tagOf stream.Tags "composer" ∧
      (parseMetadata L probeResult stream).Comment = tagOf stream.Tags "comment" ∧
      (parseMetadata L probeResult stream).Copyright = tagOf stream.Tags "copyright") ∧
    (tagOf stream.Tags "title" = "" → ∀ ftags, probeResult.Format.Tags = some ftags →
      (parseMetadata L probeResult stream).Title = mapGet ftags "title" ∧
      (parseMetadata L probeResult stream).Artist = mapGet ftags "artist" ∧
      (parseMetadata L probeResult stream).Album = mapGet ftags "album") := by
  have h := parseMetadata_tags L probeResult stream
  refine ⟨?_, h.1, h.2.2⟩
  intro ht
  have ht3 := h.2.1 (Or.inl ht)
  exact ⟨ht3.1, ht3.2.1, ht3.2.2, h.1⟩

/-- Witness of the amended C9: with the stream title `T` the format-level tags
are ignored; with only a stream artist the format-level artist is taken. -/
theorem stream_tags_authoritative_with_title_witness :
    (parseMetadata nullFloat
        { taggedFormatResult with Streams := [aacStream] } aacStream).Title = "T" ∧
    (parseMetadata nullFloat
        { taggedFormatResult with Streams := [aacStream] } aacStream).Artist = "" ∧
    (parseMetadata nullFloat taggedFormatResult artistOnlyStream).Artist = "B" :=
  ⟨((stream_tags_authoritative_with_title nullFloat
      { taggedFormatResult with Streams := [aacStream] } aacStream).1 (by decide)).1,
   ((stream_tags_authoritative_with_title nullFloat
      { taggedFormatResult with Streams := [aacStream] } aacStream).1 (by decide)).2.1,
   ((stream_tags_authoritative_with_title nullFloat taggedFormatResult artistOnlyStream).2.2
      (by decide) [("title", "A"), ("artist", "B")] rfl).2.1⟩

/-! ## Integer parsing -/

theorem subZero_digitChar (d : Nat) (h : d < 10) : subZero (Nat.digitChar d) = d := by
  interval_cases d <;> decide

theorem decimalValue_cons (c : Char) (cs : List Char) (n : Nat) :
    decimalValue (c :: cs) n = decimalValue cs (n * 10 + subZero c) := rfl

theorem decimalValue_append_singleton (cs : List Char) (c : Char) (n : Nat) :
    decimalValue (cs ++ [c]) n = decimalValue cs n * 10 + subZero c := by
  simp [decimalValue, List.foldl_append]

theorem le_decimalValue (cs : List Char) (n : Nat) : n ≤ decimalValue cs n := by
  induction cs generalizing n with
  | nil => exact Nat.le_refl n
  | cons c cs ih =>
    rw [decimalValue_cons]
    have := ih (n * 10 + subZero c)
    omega

theorem mul_ten_le_decimalValue (cs : List Char) (n : Nat) (h : cs ≠ []) :
    n * 10 ≤ decimalValue cs n := by
  cases cs with
  | nil => exact absurd rfl h
  | cons c cs =>
    rw [decimalValue_cons]
    have := le_decimalValue cs (n * 10 + subZero c)
    omega

theorem toDigitsCore_append (fuel n : Nat) (ds : List Char) :
    Nat.toDigitsCore 10 fuel n ds = Nat.toDigitsCore 10 fuel n [] ++ ds := by
  induction fuel generalizing n ds with
  | zero => simp [Nat.toDigitsCore]
  | succ fuel ih =>
    simp only [Nat.toDigitsCore]
    by_cases h : n / 10 = 0
    · simp [h]
    · simp only [h, if_false]
      rw [ih (n / 10) (Nat.digitChar (n % 10) :: ds), ih (n / 10) [Nat.digitChar (n % 10)]]
      simp

/-- The decimal digits Lean prints for `n`: a non-empty sequence of digit bytes
whose value is `n`. -/
theorem toDigitsCore_spec (fuel n : Nat) (h : n < fuel) :
    Nat.toDigitsCore 10 fuel n [] ≠ [] ∧
    (∀ c ∈ Nat.toDigitsCore 10 fuel n [], subZero c ≤ 9) ∧
    decimalValue (Nat.toDigitsCore 10 fuel n []) 0 = n := by
  induction fuel generalizing n with
  | zero => omega
  | succ fuel ih =>
    have hd : subZero (Nat.digitChar (n % 10)) = n % 10 :=
      subZero_digitChar (n % 10) (Nat.mod_lt n (by decide))
    simp only [Nat.toDigitsCore]
    by_cases h0 : n / 10 = 0
    · simp only [h0, if_true]
      refine ⟨by simp, ?_, ?_⟩
      · intro c hc
        simp only [List.mem_singleton] at hc
        subst hc
        omega
      · simp only [decimalValue, List.foldl, hd]
        omega
    · simp only [h0, if_false]
      rw [toDigitsCore_append]
      obtain ⟨_, h2, h3⟩ := ih (n / 10) (by omega)
      refine ⟨by simp, ?_, ?_⟩
      · intro c hc
        rcases List.mem_append.1 hc with hc | hc
        · exact h2 c hc
        · simp only [List.mem_singleton] at hc
          subst hc
          omega
      · rw [decimalValue_append_singleton, h3, hd]
        omega

theorem wrapInt64_id (x : Int) (h1 : -2 ^ 63 ≤ x) (h2 : x < 2 ^ 63) : wrapInt64 x = x := by
  unfold wrapInt64
  rw [Int.emod_eq_of_lt (by omega) (by omega)]
  omega

theorem ParseUintLoop_digits (cs : List Char) (n : Nat) (hd : ∀ c ∈ cs, subZero c ≤ 9)
    (hv : decimalValue cs n < 2 ^ 64) :
    ParseUintLoop cs n = (decimalValue cs n, none) := by
  induction cs generalizing n with
  | nil => rfl
  | cons c cs ih =>
    have hc : subZero c ≤ 9 := hd c (List.mem_cons_self c cs)
    rw [decimalValue_cons] at hv ⊢
    have hle := le_decimalValue cs (n * 10 + subZero c)
    have hn : n * 10 + subZero c < 2 ^ 64 := by omega
    have h10 : n * 10 % 2 ^ 64 = n * 10 := Nat.mod_eq_of_lt (by omega)
    have h1 : (n * 10 + subZero c) % 2 ^ 64 = n * 10 + subZero c := Nat.mod_eq_of_lt hn
    have hcut : ¬ n ≥ uintCutoff := by
      unfold uintCutoff maxUint64
      norm_num at hn ⊢
      omega
    have hmax : ¬ (n * 10 + subZero c < n * 10 ∨ n * 10 + subZero c > maxUint64) := by
      unfold maxUint64
      norm_num at hn ⊢
      omega
    simp only [ParseUintLoop, Nat.not_lt.mpr hc, hcut, h10, h1, hmax, if_false]
    exact ih (n * 10 + subZero c) (fun x hx => hd x (List.mem_cons_of_mem c hx)) hv

theorem AtoiFastLoop_digits (cs : List Char) (n : Nat) (hd : ∀ c ∈ cs, subZero c ≤ 9)
    (hn : n < 2 ^ 63) (hv : decimalValue cs n ≤ 2 ^ 63) :
    AtoiFastLoop cs (n : Int) = (wrapInt64 (decimalValue cs n : Nat), none) := by
  induction cs generalizing n with
  | nil =>
    simp only [AtoiFastLoop, decimalValue, List.foldl]
    rw [wrapInt64_id (n : Int) (by omega) (by omega)]
  | cons c cs ih =>
    have hc : subZero c ≤ 9 := hd c (List.mem_cons_self c cs)
    have hrest : ∀ x ∈ cs, subZero x ≤ 9 := fun x hx => hd x (List.mem_cons_of_mem c hx)
    rw [decimalValue_cons] at hv ⊢
    simp only [AtoiFastLoop, Nat.not_lt.mpr hc, if_false]
    have hcast : ((n : Int) * 10 + (subZero c : Int)) = ((n * 10 + subZero c : Nat) : Int) := by
      push_cast; rfl
    rw [hcast]
    by_cases hcs : cs = []
    · subst hcs
      simp [AtoiFastLoop, decimalValue]
    · have hm := mul_ten_le_decimalValue cs (n * 10 + subZero c) hcs
      have hlt : n * 10 + subZero c < 2 ^ 63 := by omega
      rw [wrapInt64_id ((n * 10 + subZero c : Nat) : Int) (by omega) (by omega)]
      exact ih (n * 10 + subZero c) hrest hlt hv

theorem not_sign_of_digit (c : Char) (h : subZero c ≤ 9) : ¬ (c = '-' ∨ c = '+') := by
  rintro (rfl | rfl) <;> revert h <;> decide

/-- `ParseInt` on a non-empty digit sequence of value at most `2^63 - 1`. -/
theorem ParseInt_digits (cs : List Char) (hne : cs ≠ []) (hd : ∀ c ∈ cs, subZero c ≤ 9)
    (hv : decimalValue cs 0 < 2 ^ 63) :
    ParseInt cs = (((decimalValue cs 0 : Nat) : Int), none) := by
  cases cs with
  | nil => exact absurd rfl hne
  | cons c rest =>
    have hs := not_sign_of_digit c (hd c (List.mem_cons_self c rest))
    have hpos : c ≠ '+' := fun h => hs (Or.inr h)
    have hneg : c ≠ '-' := fun h => hs (Or.inl h)
    have hu : ParseUint (c :: rest) = (decimalValue (c :: rest) 0, none) := by
      unfold ParseUint
      simp only [reduceCtorEq, if_false]
      exact ParseUintLoop_digits (c :: rest) 0 hd (by omega)
    have hcut : ¬ 2 ^ 63 ≤ decimalValue (c :: rest) 0 := by omega
    unfold ParseInt
    simp [hpos, hneg, hu, hcut,
      wrapInt64_id ((decimalValue (c :: rest) 0 : Nat) : Int) (by omega) (by omega)]
    omega

/-- `ParseInt` on a minus sign followed by a non-empty digit sequence of value at
most `2^63`. -/
theorem ParseInt_neg_digits (cs : List Char) (hne : cs ≠ []) (hd : ∀ c ∈ cs, subZero c ≤ 9)
    (hv : decimalValue cs 0 ≤ 2 ^ 63) :
    ParseInt ('-' :: cs) = (-((decimalValue cs 0 : Nat) : Int), none) := by
  have hu : ParseUint cs = (decimalValue cs 0, none) := by
    unfold ParseUint
    simp only [hne, if_false]
    exact ParseUintLoop_digits cs 0 hd (by omega)
  have hcut : ¬ 2 ^ 63 < decimalValue cs 0 := by omega
  have hw : wrapInt64 (-wrapInt64 ((decimalValue cs 0 : Nat) : Int)) =
      -((decimalValue cs 0 : Nat) : Int) := by
    by_cases hlt : decimalValue cs 0 < 2 ^ 63
    · rw [wrapInt64_id ((decimalValue cs 0 : Nat) : Int) (by omega) (by omega)]
      exact wrapInt64_id _ (by omega) (by omega)
    · have he : decimalValue cs 0 = 2 ^ 63 := by omega
      rw [he]
      norm_num [wrapInt64]
  unfold ParseInt
  simp [hu, hcut, hw]
  omega

/-- The fast path of `Atoi` on a non-empty digit sequence of value below `2^63`. -/
theorem AtoiFast_digits (cs : List Char) (hne : cs ≠ []) (hd : ∀ c ∈ cs, subZero c ≤ 9)
    (hv : decimalValue cs 0 < 2 ^ 63) :
    AtoiFast cs = (((decimalValue cs 0 : Nat) : Int), none) := by
  cases cs with
  | nil => exact absurd rfl hne
  | cons c rest =>
    have hs := not_sign_of_digit c (hd c (List.mem_cons_self c rest))
    have hpos : c ≠ '+' := fun h => hs (Or.inr h)
    have hneg : c ≠ '-' := fun h => hs (Or.inl h)
    have hl := AtoiFastLoop_digits (c :: rest) 0 hd (by norm_num) (by omega)
    rw [wrapInt64_id ((decimalValue (c :: rest) 0 : Nat) : Int) (by omega) (by omega)] at hl
    unfold AtoiFast
    simp only [hpos, hneg, or_self, if_false]
    simp only [Nat.cast_zero] at hl
    simp [hl]

/-- The fast path of `Atoi` on a minus sign followed by a non-empty digit sequence
of value at most `2^63`. -/
theorem AtoiFast_neg_digits (cs : List Char) (hne : cs ≠ []) (hd : ∀ c ∈ cs, subZero c ≤ 9)
    (hv : decimalValue cs 0 ≤ 2 ^ 63) :
    AtoiFast ('-' :: cs) = (-((decimalValue cs 0 : Nat) : Int), none) := by
  have hl := AtoiFastLoop_digits cs 0 hd (by norm_num) hv
  simp only [Nat.cast_zero] at hl
  have hw : wrapInt64 (-wrapInt64 ((decimalValue cs 0 : Nat) : Int)) =
      -((decimalValue cs 0 : Nat) : Int) := by
    by_cases hlt : decimalValue cs 0 < 2 ^ 63
    · rw [wrapInt64_id ((decimalValue cs 0 : Nat) : Int) (by omega) (by omega)]
      exact wrapInt64_id _ (by omega) (by omega)
    · have he : decimalValue cs 0 = 2 ^ 63 := by omega
      rw [he]
      norm_num [wrapInt64]
  have hlen : ¬ cs.length < 1 := by
    cases cs with
    | nil => exact absurd rfl hne
    | cons c rest => simp
  unfold AtoiFast
  simp [hlen, hl, hw]

theorem toList_toString_nat (m : Nat) : (toString m).toList = Nat.toDigits 10 m := rfl

theorem toList_toString_negSucc (m : Nat) :
    (toString (Int.negSucc m)).toList = '-' :: Nat.toDigits 10 (m + 1) := rfl

theorem Atoi_of_both_paths (s : String) (r : Int × Option NumErr)
    (hfast : AtoiFast s.toList = r) (hslow : ParseInt s.toList = r) : Atoi s = r := by
  unfold Atoi
  by_cases hc : 0 < s.utf8ByteSize ∧ s.utf8ByteSize < 19
  · simp only [hc, and_self, if_true]; exact hfast
  · simp only [hc, if_false]; exact hslow

/-- `Atoi` reads back the decimal text of every integer of the `int64` range. -/
theorem Atoi_toString (n : Int) (h1 : -2 ^ 63 ≤ n) (h2 : n < 2 ^ 63) :
    Atoi (toString n) = (n, none) := by
  cases n with
  | ofNat m =>
    have hspec := toDigitsCore_spec (m + 1) m (Nat.lt_succ_self m)
    have hv : decimalValue (Nat.toDigits 10 m) 0 = m := hspec.2.2
    have hm : m < 2 ^ 63 := by
      have : (m : Int) < 2 ^ 63 := h2
      omega
    have hfast := AtoiFast_digits (Nat.toDigits 10 m) hspec.1 hspec.2.1 (by rw [hv]; exact hm)
    have hslow := ParseInt_digits (Nat.toDigits 10 m) hspec.1 hspec.2.1 (by rw [hv]; exact hm)
    rw [hv] at hfast hslow
    have ht : (toString (Int.ofNat m)).toList = Nat.toDigits 10 m := rfl
    exact Atoi_of_both_paths (toString (Int.ofNat m)) _ (by rw [ht]; exact hfast)
      (by rw [ht]; exact hslow)
  | negSucc m =>
    have hspec := toDigitsCore_spec (m + 1 + 1) (m + 1) (Nat.lt_succ_self (m + 1))
    have hv : decimalValue (Nat.toDigits 10 (m + 1)) 0 = m + 1 := hspec.2.2
    have hm : m + 1 ≤ 2 ^ 63 := by
      have h := h1
      rw [Int.negSucc_eq] at h
      omega
    have hfast := AtoiFast_neg_digits (Nat.toDigits 10 (m + 1)) hspec.1 hspec.2.1
      (by rw [hv]; exact hm)
    have hslow := ParseInt_neg_digits (Nat.toDigits 10 (m + 1)) hspec.1 hspec.2.1
      (by rw [hv]; exact hm)
    rw [hv] at hfast hslow
    have hneg : Int.negSucc m = -((m + 1 : Nat) : Int) := by
      rw [Int.negSucc_eq]; push_cast; rfl
    rw [← hneg] at hfast hslow
    exact Atoi_of_both_paths (toString (Int.negSucc m)) _
      (by rw [toList_toString_negSucc]; exact hfast)
      (by rw [toList_toString_negSucc]; exact hslow)

theorem ParseInt_plus_digits (cs : List Char) (hne : cs ≠ []) (hd : ∀ c ∈ cs, subZero c ≤ 9)
    (hv : decimalValue cs 0 < 2 ^ 63) :
    ParseInt ('+' :: cs) = (((decimalValue cs 0 : Nat) : Int), none) := by
  have hu : ParseUint cs = (decimalValue cs 0, none) := by
    unfold ParseUint
    simp only [hne, if_false]
    exact ParseUintLoop_digits cs 0 hd (by omega)
  have hcut : ¬ 2 ^ 63 ≤ decimalValue cs 0 := by omega
  unfold ParseInt
  simp [hu, hcut, wrapInt64_id ((decimalValue cs 0 : Nat) : Int) (by omega) (by omega)]
  omega

theorem AtoiFast_plus_digits (cs : List Char) (hne : cs ≠ []) (hd : ∀ c ∈ cs, subZero c ≤ 9)
    (hv : decimalValue cs 0 < 2 ^ 63) :
    AtoiFast ('+' :: cs) = (((decimalValue cs 0 : Nat) : Int), none) := by
  have hl := AtoiFastLoop_digits cs 0 hd (by norm_num) (by omega)
  rw [wrapInt64_id ((decimalValue cs 0 : Nat) : Int) (by omega) (by omega)] at hl
  simp only [Nat.cast_zero] at hl
  have hlen : ¬ cs.length < 1 := by
    cases cs with
    | nil => exact absurd rfl hne
    | cons c rest => simp
  unfold AtoiFast
  simp [hlen, hl]

/-- `Atoi` on a digit sequence with an optional sign: the value of the digits,
negated after a minus sign, whenever it fits the `int64` range. -/
theorem Atoi_signed_digits (cs : List Char) (hne : cs ≠ []) (hd : ∀ c ∈ cs, subZero c ≤ 9) :
    (decimalValue cs 0 < 2 ^ 63 →
      Atoi (String.mk cs) = (((decimalValue cs 0 : Nat) : Int), none) ∧
      Atoi (String.mk ('+' :: cs)) = (((decimalValue cs 0 : Nat) : Int), none)) ∧
    (decimalValue cs 0 ≤ 2 ^ 63 →
      Atoi (String.mk ('-' :: cs)) = (-((decimalValue cs 0 : Nat) : Int), none)) := by
  refine ⟨fun hv => ⟨?_, ?_⟩, fun hv => ?_⟩
  · exact Atoi_of_both_paths (String.mk cs) _ (AtoiFast_digits cs hne hd hv)
      (ParseInt_digits cs hne hd hv)
  · exact Atoi_of_both_paths (String.mk ('+' :: cs)) _ (AtoiFast_plus_digits cs hne hd hv)
      (ParseInt_plus_digits cs hne hd hv)
  · exact Atoi_of_both_paths (String.mk ('-' :: cs)) _ (AtoiFast_neg_digits cs hne hd hv)
      (ParseInt_neg_digits cs hne hd hv)

/-- C7: when the bit rate text of the selected stream is the decimal text of an
integer `n` of the `int64` range, `parseMetadata` gives `bit_rate_kbps = n / 1000`
by division truncated toward zero: `1000 * kbps ≤ n < 1000 * kbps + 1000` for
`n ≥ 0` (and `n ≤ 1000 * kbps < n + 1000` for `n ≤ 0`); when the sample rate text
is the decimal text of such an integer `s`, `sample_rate_hz = s`.  The same holds
for every non-empty sequence of decimal digits of value below `2^63`, with
leading zeros or a sign in front. -/
theorem bit_rate_kbps_truncated (L : FloatLib) (probeResult : FFProbeResult)
    (stream : StreamDetail) :
    (∀ n : Int, -2 ^ 63 ≤ n → n < 2 ^ 63 → stream.BitRate = toString n →
      (parseMetadata L probeResult stream).BitRateKbps = Int.tdiv n 1000 ∧
      (0 ≤ n → 1000 * (parseMetadata L probeResult stream).BitRateKbps ≤ n ∧
        n < 1000 * (parseMetadata L probeResult stream).BitRateKbps + 1000) ∧
      (n ≤ 0 → n ≤ 1000 * (parseMetadata L probeResult stream).BitRateKbps ∧
        1000 * (parseMetadata L probeResult stream).BitRateKbps < n + 1000)) ∧
    (∀ s : Int, -2 ^ 63 ≤ s → s < 2 ^ 63 → stream.SampleRate = toString s →
      (parseMetadata L probeResult stream).SampleRateHz = s) ∧
    (∀ cs : List Char, cs ≠ [] → (∀ c ∈ cs, subZero c ≤ 9) → decimalValue cs 0 < 2 ^ 63 →
      (stream.BitRate = String.mk cs ∨ stream.BitRate = String.mk ('+' :: cs) →
        (parseMetadata L probeResult stream).BitRateKbps =
          Int.tdiv ((decimalValue cs 0 : Nat) : Int) 1000) ∧
      (stream.BitRate = String.mk ('-' :: cs) →
        (parseMetadata L probeResult stream).BitRateKbps =
          Int.tdiv (-((decimalValue cs 0 : Nat) : Int)) 1000) ∧
      (stream.SampleRate = String.mk cs ∨ stream.SampleRate = String.mk ('+' :: cs) →
        (parseMetadata L probeResult stream).SampleRateHz = ((decimalValue cs 0 : Nat) : Int)) ∧
      (stream.SampleRate = String.mk ('-' :: cs) →
        (parseMetadata L probeResult stream).SampleRateHz =
          -((decimalValue cs 0 : Nat) : Int))) := by
  have hf := parseMetadata_stream_fields L probeResult stream
  refine ⟨?_, ?_, ?_⟩
  rotate_left 2
  · intro cs hne hd hv
    have h := Atoi_signed_digits cs hne hd
    have hpos := h.1 hv
    have hneg := h.2 (by omega)
    refine ⟨?_, ?_, ?_, ?_⟩
    · rintro (ht | ht)
      · rw [hf.2.2.1, ht, hpos.1]
      · rw [hf.2.2.1, ht, hpos.2]
    · intro ht; rw [hf.2.2.1, ht, hneg]
    · rintro (ht | ht)
      · rw [hf.2.1, ht, hpos.1]
      · rw [hf.2.1, ht, hpos.2]
    · intro ht; rw [hf.2.1, ht, hneg]
  · intro n h1 h2 htext
    have hk : (parseMetadata L probeResult stream).BitRateKbps = Int.tdiv n 1000 := by
      rw [hf.2.2.1, htext, Atoi_toString n h1 h2]
    rw [hk]
    refine ⟨rfl, ?_, ?_⟩
    · intro hn
      rw [Int.tdiv_eq_ediv hn (by decide)]
      omega
    · intro hn
      have hneg : Int.tdiv n 1000 = -((-n) / 1000) := by
        have h := Int.neg_tdiv (-n) 1000
        rw [Int.neg_neg] at h
        rw [h, Int.tdiv_eq_ediv (by omega) (by decide)]
      rw [hneg]
      omega
  · intro s h1 h2 htext
    rw [hf.2.1, htext, Atoi_toString s h1 h2]

/-- Witness of C7: bit rate `128000` gives 128 kbps and sample rate `44100` gives
44100 Hz. -/
theorem bit_rate_kbps_truncated_witness :
    (parseMetadata nullFloat songResult aacStream).BitRateKbps = 128 ∧
    (parseMetadata nullFloat songResult aacStream).SampleRateHz = 44100 :=
  ⟨((bit_rate_kbps_truncated nullFloat songResult aacStream).1 128000 (by decide) (by decide)
      (by decide)).1,
   (bit_rate_kbps_truncated nullFloat songResult aacStream).2.1 44100 (by decide) (by decide)
      (by decide)⟩

/-! ## Rejected numeric texts -/

theorem AtoiFastLoop_error (cs : List Char) (n : Int) :
    (AtoiFastLoop cs n).2 = none ∨ AtoiFastLoop cs n = (0, some NumErr.ErrSyntax) := by
  induction cs generalizing n with
  | nil => exact Or.inl rfl
  | cons c cs ih =>
    simp only [AtoiFastLoop]
    by_cases hc : subZero c > 9
    · simp [hc]
    · simp only [hc, if_false]
      exact ih _

theorem AtoiFast_error (cs : List Char) :
    (AtoiFast cs).2 = none ∨ AtoiFast cs = (0, some NumErr.ErrSyntax) := by
  unfold AtoiFast
  cases cs with
  | nil => exact Or.inr rfl
  | cons c rest =>
    simp only
    generalize (if c = '-' ∨ c = '+' then rest else c :: rest) = body
    by_cases hl : body.length < 1
    · simp [hl]
    · rcases AtoiFastLoop_error body 0 with h0 | h0
      · simp [hl, h0]
      · simp [hl, h0]

theorem ParseInt_error (cs : List Char) :
    (ParseInt cs).2 = none ∨ ParseInt cs = (0, some NumErr.ErrSyntax) ∨
      ParseInt cs = (2 ^ 63 - 1, some NumErr.ErrRange) ∨
      ParseInt cs = (-2 ^ 63, some NumErr.ErrRange) := by
  have hmax : wrapInt64 ((2 ^ 63 - 1 : Nat) : Int) = 2 ^ 63 - 1 := by norm_num [wrapInt64]
  have hmin : wrapInt64 (-(wrapInt64 ((2 ^ 63 : Nat) : Int))) = -2 ^ 63 := by
    norm_num [wrapInt64]
  unfold ParseInt
  cases cs with
  | nil => exact Or.inr (Or.inl rfl)
  | cons c rest =>
    simp only
    generalize ParseUint (if c = '+' ∨ c = '-' then rest else c :: rest) = un
    by_cases h1 : un.2 = some NumErr.ErrSyntax
    · simp [h1]
    · rw [if_neg h1]
      by_cases h2 : ¬ c = '-' ∧ un.1 ≥ 2 ^ 63
      · rw [if_pos h2, hmax]; exact Or.inr (Or.inr (Or.inl rfl))
      · rw [if_neg h2]
        by_cases h3 : c = '-' ∧ un.1 > 2 ^ 63
        · rw [if_pos h3, hmin]; exact Or.inr (Or.inr (Or.inr rfl))
        · rw [if_neg h3]; exact Or.inl rfl

/-- What `Atoi` returns with an error: 0 with a syntax error, the largest or the
smallest `int64` with a range error. -/
theorem Atoi_error (t : String) :
    ((Atoi t).2 = some NumErr.ErrSyntax → (Atoi t).1 = 0) ∧
    ((Atoi t).2 = some NumErr.ErrRange → (Atoi t).1 = 2 ^ 63 - 1 ∨ (Atoi t).1 = -2 ^ 63) := by
  by_cases hc : 0 < t.utf8ByteSize ∧ t.utf8ByteSize < 19
  · have hA : Atoi t = AtoiFast t.toList := by
      unfold Atoi; simp only [hc, and_self, if_true]
    rw [hA]
    rcases AtoiFast_error t.toList with h | h
    · rw [h]; simp
    · rw [h]; simp
  · have hA : Atoi t = ParseInt t.toList := by
      unfold Atoi; simp only [hc, if_false]
    rw [hA]
    rcases ParseInt_error t.toList with h | h | h | h
    · rw [h]; simp
    · rw [h]; simp
    · rw [h]; simp
    · rw [h]; simp

theorem ParseUint_bad_head (cs : List Char)
    (h : cs = [] ∨ ∃ c rest, cs = c :: rest ∧ 9 < subZero c) :
    ParseUint cs = (0, some NumErr.ErrSyntax) := by
  rcases h with h | ⟨c, rest, h, hc⟩
  · subst h; rfl
  · subst h; simp [ParseUint, ParseUintLoop, hc]

theorem AtoiFast_body_bad_head (cs : List Char) (n : Int)
    (h : ∃ c rest, cs = c :: rest ∧ 9 < subZero c) :
    AtoiFastLoop cs n = (0, some NumErr.ErrSyntax) := by
  obtain ⟨c, rest, h, hc⟩ := h
  subst h; simp [AtoiFastLoop, hc]

/-- A text without any decimal digit (the empty text, a sign alone, words) is a
syntax error with value 0. -/
theorem Atoi_no_digit (t : String) (h : ∀ c ∈ t.toList, 9 < subZero c) :
    Atoi t = (0, some NumErr.ErrSyntax) := by
  apply Atoi_of_both_paths
  · unfold AtoiFast
    cases hl : t.toList with
    | nil => rfl
    | cons c rest =>
      rw [hl] at h
      simp only
      have hbody : (if c = '-' ∨ c = '+' then rest else c :: rest) = [] ∨
          ∃ b tl, (if c = '-' ∨ c = '+' then rest else c :: rest) = b :: tl ∧ 9 < subZero b := by
        by_cases hs : c = '-' ∨ c = '+'
        · rw [if_pos hs]
          cases rest with
          | nil => exact Or.inl rfl
          | cons b tl => exact Or.inr ⟨b, tl, rfl, h b (by simp)⟩
        · rw [if_neg hs]
          exact Or.inr ⟨c, rest, rfl, h c (by simp)⟩
      generalize (if c = '-' ∨ c = '+' then rest else c :: rest) = body at hbody
      rcases hbody with hb | hb
      · subst hb; rfl
      · have hloop := AtoiFast_body_bad_head body 0 hb
        obtain ⟨b, tl, hb, _⟩ := hb
        subst hb
        simp [hloop]
  · unfold ParseInt
    cases hl : t.toList with
    | nil => rfl
    | cons c rest =>
      rw [hl] at h
      simp only
      have hbody : ParseUint (if c = '+' ∨ c = '-' then rest else c :: rest) =
          (0, some NumErr.ErrSyntax) := by
        apply ParseUint_bad_head
        by_cases hs : c = '+' ∨ c = '-'
        · rw [if_pos hs]
          cases rest with
          | nil => exact Or.inl rfl
          | cons b tl => exact Or.inr ⟨b, tl, rfl, h b (by simp)⟩
        · rw [if_neg hs]
          exact Or.inr ⟨c, rest, rfl, h c (by simp)⟩
      simp [hbody]

theorem ParseUintLoop_append (pre rest : List Char) (n : Nat)
    (hd : ∀ c ∈ pre, subZero c ≤ 9) (hv : decimalValue pre n < 2 ^ 64) :
    ParseUintLoop (pre ++ rest) n = ParseUintLoop rest (decimalValue pre n) := by
  induction pre generalizing n with
  | nil => rfl
  | cons c cs ih =>
    have hc : subZero c ≤ 9 := hd c (List.mem_cons_self c cs)
    rw [decimalValue_cons] at hv ⊢
    have hle := le_decimalValue cs (n * 10 + subZero c)
    have hn : n * 10 + subZero c < 2 ^ 64 := by omega
    have h10 : n * 10 % 2 ^ 64 = n * 10 := Nat.mod_eq_of_lt (by omega)
    have h1 : (n * 10 + subZero c) % 2 ^ 64 = n * 10 + subZero c := Nat.mod_eq_of_lt hn
    have hcut : ¬ n ≥ uintCutoff := by
      unfold uintCutoff maxUint64
      norm_num at hn ⊢
      omega
    have hmax : ¬ (n * 10 + subZero c < n * 10 ∨ n * 10 + subZero c > maxUint64) := by
      unfold maxUint64
      norm_num at hn ⊢
      omega
    simp only [List.cons_append, ParseUintLoop, Nat.not_lt.mpr hc, hcut, h10, h1, hmax, if_false]
    exact ih (n * 10 + subZero c) (fun x hx => hd x (List.mem_cons_of_mem c hx)) hv

theorem AtoiFastLoop_append_bad (pre post : List Char) (c : Char) (n : Int)
    (hd : ∀ x ∈ pre, subZero x ≤ 9) (hc : 9 < subZero c) :
    AtoiFastLoop (pre ++ c :: post) n = (0, some NumErr.ErrSyntax) := by
  induction pre generalizing n with
  | nil => simp [AtoiFastLoop, hc]
  | cons p pre ih =>
    have hp : subZero p ≤ 9 := hd p (List.mem_cons_self p pre)
    simp only [List.cons_append, AtoiFastLoop, Nat.not_lt.mpr hp, if_false]
    exact ih _ (fun x hx => hd x (List.mem_cons_of_mem p hx))

/-- A text that starts with decimal digits (of value below `2^64`) followed by a
character that is not a digit is a syntax error with value 0. -/
theorem Atoi_digits_then_other (pre post : List Char) (c : Char) (hne : pre ≠ [])
    (hd : ∀ x ∈ pre, subZero x ≤ 9) (hv : decimalValue pre 0 < 2 ^ 64) (hc : 9 < subZero c) :
    Atoi (String.mk (pre ++ c :: post)) = (0, some NumErr.ErrSyntax) := by
  cases pre with
  | nil => exact absurd rfl hne
  | cons p pre =>
    have hs := not_sign_of_digit p (hd p (List.mem_cons_self p pre))
    have hpos : p ≠ '+' := fun h => hs (Or.inr h)
    have hneg : p ≠ '-' := fun h => hs (Or.inl h)
    apply Atoi_of_both_paths
    · have hl := AtoiFastLoop_append_bad (p :: pre) post c 0 hd hc
      simp only [List.cons_append] at hl
      show AtoiFast (p :: pre ++ c :: post) = _
      unfold AtoiFast
      simp [hpos, hneg, hl]
    · have hu : ParseUint (p :: pre ++ c :: post) = (0, some NumErr.ErrSyntax) := by
        unfold ParseUint
        simp only [List.cons_append, reduceCtorEq, if_false]
        have := ParseUintLoop_append (p :: pre) (c :: post) 0 hd hv
        simp only [List.cons_append] at this
        rw [this]
        simp [ParseUintLoop, hc]
      show ParseInt (p :: pre ++ c :: post) = _
      unfold ParseInt
      simp only [List.cons_append] at hu ⊢
      simp [hpos, hneg, hu]

theorem ParseUintLoop_overflow (cs : List Char) (n : Nat) (hd : ∀ c ∈ cs, subZero c ≤ 9)
    (hn : n < 2 ^ 64) (hv : 2 ^ 64 ≤ decimalValue cs n) :
    ParseUintLoop cs n = (maxUint64, some NumErr.ErrRange) := by
  induction cs generalizing n with
  | nil =>
    simp only [decimalValue, List.foldl] at hv
    omega
  | cons c cs ih =>
    have hc : subZero c ≤ 9 := hd c (List.mem_cons_self c cs)
    rw [decimalValue_cons] at hv
    simp only [ParseUintLoop, Nat.not_lt.mpr hc, if_false]
    by_cases hcut : n ≥ uintCutoff
    · simp [hcut]
    · simp only [hcut, if_false]
      have hn10 : n * 10 < 2 ^ 64 := by
        unfold uintCutoff maxUint64 at hcut
        norm_num at hcut ⊢
        omega
      have h10 : n * 10 % 2 ^ 64 = n * 10 := Nat.mod_eq_of_lt hn10
      rw [h10]
      by_cases hwrap : n * 10 + subZero c < 2 ^ 64
      · have h1 : (n * 10 + subZero c) % 2 ^ 64 = n * 10 + subZero c := Nat.mod_eq_of_lt hwrap
        have hmax : ¬ (n * 10 + subZero c < n * 10 ∨ n * 10 + subZero c > maxUint64) := by
          unfold maxUint64
          norm_num at hwrap ⊢
          omega
        rw [h1]
        simp only [hmax, if_false]
        exact ih (n * 10 + subZero c) (fun x hx => hd x (List.mem_cons_of_mem c hx)) hwrap hv
      · have h1 : (n * 10 + subZero c) % 2 ^ 64 < n * 10 := by
          norm_num at hwrap hn10 ⊢
          omega
        rw [if_pos (Or.inl h1)]

theorem decimalValue_lt_pow (cs : List Char) (n : Nat) (hd : ∀ c ∈ cs, subZero c ≤ 9) :
    decimalValue cs n < (n + 1) * 10 ^ cs.length := by
  induction cs generalizing n with
  | nil => simp [decimalValue]
  | cons c cs ih =>
    have hc : subZero c ≤ 9 := hd c (List.mem_cons_self c cs)
    rw [decimalValue_cons]
    have h := ih (n * 10 + subZero c) (fun x hx => hd x (List.mem_cons_of_mem c hx))
    have hle : (n * 10 + subZero c + 1) * 10 ^ cs.length ≤ ((n + 1) * 10) * 10 ^ cs.length :=
      Nat.mul_le_mul_right _ (by omega)
    have hpow : (n + 1) * 10 ^ (c :: cs).length = ((n + 1) * 10) * 10 ^ cs.length := by
      rw [List.length_cons, Nat.pow_succ]; ring
    rw [hpow]
    omega

theorem length_le_utf8Len (cs : List Char) : cs.length ≤ String.utf8Len cs := by
  induction cs with
  | nil => simp
  | cons c cs ih =>
    have := Char.utf8Size_pos c
    simp only [List.length_cons, String.utf8Len_cons]
    omega

theorem length_le_utf8ByteSize (t : String) : t.toList.length ≤ t.utf8ByteSize := by
  cases t with
  | mk cs => exact length_le_utf8Len cs

/-- A digit sequence of value at least `2^63` has at least 19 digits. -/
theorem length_of_large (cs : List Char) (hd : ∀ c ∈ cs, subZero c ≤ 9)
    (hv : 2 ^ 63 ≤ decimalValue cs 0) : 19 ≤ cs.length := by
  by_contra hlen
  have h := decimalValue_lt_pow cs 0 hd
  have hp : 10 ^ cs.length ≤ 10 ^ 18 := Nat.pow_le_pow_right (by decide) (by omega)
  norm_num at hv hp h
  omega

/-- `ParseUint` on a non-empty digit sequence: no syntax error, and a value that
is the value of the digits or `maxUint64`. -/
theorem ParseUint_digits_cases (cs : List Char) (hne : cs ≠ []) (hd : ∀ c ∈ cs, subZero c ≤ 9) :
    ParseUint cs = (decimalValue cs 0, none) ∨
      (2 ^ 64 ≤ decimalValue cs 0 ∧ ParseUint cs = (maxUint64, some NumErr.ErrRange)) := by
  unfold ParseUint
  simp only [hne, if_false]
  by_cases hv : decimalValue cs 0 < 2 ^ 64
  · exact Or.inl (ParseUintLoop_digits cs 0 hd hv)
  · exact Or.inr ⟨by omega, ParseUintLoop_overflow cs 0 hd (by norm_num) (by omega)⟩

theorem ParseInt_large_digits (cs : List Char) (hne : cs ≠ [])
    (hd : ∀ c ∈ cs, subZero c ≤ 9) (hv : 2 ^ 63 ≤ decimalValue cs 0) :
    ParseInt cs = (2 ^ 63 - 1, some NumErr.ErrRange) := by
  have hmax : wrapInt64 ((2 ^ 63 - 1 : Nat) : Int) = 2 ^ 63 - 1 := by norm_num [wrapInt64]
  have hM : 2 ^ 63 ≤ maxUint64 := by unfold maxUint64; norm_num
  have hu := ParseUint_digits_cases cs hne hd
  cases cs with
  | nil => exact absurd rfl hne
  | cons c rest =>
    have hs := not_sign_of_digit c (hd c (List.mem_cons_self c rest))
    have hpos : c ≠ '+' := fun h => hs (Or.inr h)
    have hneg : c ≠ '-' := fun h => hs (Or.inl h)
    have hbody : (if c = '+' ∨ c = '-' then rest else c :: rest) = c :: rest := by
      simp [hpos, hneg]
    unfold ParseInt
    simp only [hbody]
    rcases hu with hu | ⟨_, hu⟩
    · rw [hu]
      rw [if_neg (by simp), if_pos ⟨by simp [hneg], hv⟩, hmax]
    · rw [hu]
      rw [if_neg (by simp), if_pos ⟨by simp [hneg], hM⟩, hmax]

theorem ParseInt_neg_large_digits (cs : List Char) (hne : cs ≠ [])
    (hd : ∀ c ∈ cs, subZero c ≤ 9) (hv : 2 ^ 63 < decimalValue cs 0) :
    ParseInt ('-' :: cs) = (-2 ^ 63, some NumErr.ErrRange) := by
  have hmin : wrapInt64 (-(wrapInt64 ((2 ^ 63 : Nat) : Int))) = -2 ^ 63 := by
    norm_num [wrapInt64]
  have hM : 2 ^ 63 < maxUint64 := by unfold maxUint64; norm_num
  have hu := ParseUint_digits_cases cs hne hd
  unfold ParseInt
  simp only [or_true, if_true]
  rcases hu with hu | ⟨_, hu⟩
  · rw [hu]
    rw [if_neg (by simp), if_neg (by simp), if_pos ⟨trivial, hv⟩, hmin]
  · rw [hu]
    rw [if_neg (by simp), if_neg (by simp), if_pos ⟨trivial, hM⟩, hmin]

/-- The decimal text of an integer above the `int64` range is a range error with
the largest `int64`; below the range, a range error with the smallest. -/
theorem Atoi_toString_out_of_range (n : Int) :
    (2 ^ 63 ≤ n → Atoi (toString n) = (2 ^ 63 - 1, some NumErr.ErrRange)) ∧
    (n < -2 ^ 63 → Atoi (toString n) = (-2 ^ 63, some NumErr.ErrRange)) := by
  cases n with
  | ofNat m =>
    constructor
    · intro h
      have hm : 2 ^ 63 ≤ m := by
        have : (2 : Int) ^ 63 ≤ (m : Int) := h
        omega
      have hspec := toDigitsCore_spec (m + 1) m (Nat.lt_succ_self m)
      have hv : decimalValue (Nat.toDigits 10 m) 0 = m := hspec.2.2
      have hlen := length_of_large (Nat.toDigits 10 m) hspec.2.1 (by rw [hv]; exact hm)
      have hbytes := length_le_utf8ByteSize (toString (Int.ofNat m))
      have ht : (toString (Int.ofNat m)).toList = Nat.toDigits 10 m := rfl
      rw [ht] at hbytes
      have hA : Atoi (toString (Int.ofNat m)) = ParseInt (Nat.toDigits 10 m) := by
        unfold Atoi
        have hc : ¬ (0 < (toString (Int.ofNat m)).utf8ByteSize ∧
            (toString (Int.ofNat m)).utf8ByteSize < 19) := by omega
        simp only [hc, if_false]
        rw [ht]
      rw [hA]
      exact ParseInt_large_digits (Nat.toDigits 10 m) hspec.1 hspec.2.1 (by rw [hv]; exact hm)
    · intro h
      have : (0 : Int) ≤ (m : Int) := Int.ofNat_nonneg m
      have h' : (m : Int) < -2 ^ 63 := h
      omega
  | negSucc m =>
    constructor
    · intro h
      rw [Int.negSucc_eq] at h
      omega
    · intro h
      have hm : 2 ^ 63 < m + 1 := by
        rw [Int.negSucc_eq] at h
        omega
      have hspec := toDigitsCore_spec (m + 1 + 1) (m + 1) (Nat.lt_succ_self (m + 1))
      have hv : decimalValue (Nat.toDigits 10 (m + 1)) 0 = m + 1 := hspec.2.2
      have hlen := length_of_large (Nat.toDigits 10 (m + 1)) hspec.2.1 (by rw [hv]; omega)
      have hbytes := length_le_utf8ByteSize (toString (Int.negSucc m))
      rw [toList_toString_negSucc, List.length_cons] at hbytes
      have hA : Atoi (toString (Int.negSucc m)) = ParseInt ('-' :: Nat.toDigits 10 (m + 1)) := by
        unfold Atoi
        have hc : ¬ (0 < (toString (Int.negSucc m)).utf8ByteSize ∧
            (toString (Int.negSucc m)).utf8ByteSize < 19) := by omega
        simp only [hc, if_false]
        rw [toList_toString_negSucc]
      rw [hA]
      exact ParseInt_neg_large_digits (Nat.toDigits 10 (m + 1)) hspec.1 hspec.2.1
        (by rw [hv]; exact hm)

/-! ## Rejected float texts -/

/-- What `ParseFloat` returns with an error: 0 with a syntax error, an infinity
with a range error. -/
theorem ParseFloat64_error (R : Rounding) (t : String) :
    ((ParseFloat64 R t).2 = some NumErr.ErrSyntax → (ParseFloat64 R t).1 = Float64.zero) ∧
    ((ParseFloat64 R t).2 = some NumErr.ErrRange →
      (ParseFloat64 R t).1 = Float64.inf false ∨ (ParseFloat64 R t).1 = Float64.inf true) := by
  unfold ParseFloat64
  cases hs : special t.toList with
  | some p =>
    obtain ⟨v, rest⟩ := p
    by_cases hr : rest = []
    · simp [hr]
    · simp [hr]
  | none =>
    cases hr : readFloat t.toList with
    | none => simp
    | some q =>
      obtain ⟨lit, rest⟩ := q
      by_cases hrest : rest = []
      · by_cases hd : lit.digits = 0
        · simp [hrest, hd]
        · by_cases ho : overflows (if lit.hex then 2 else 10) lit.digits lit.exp = true
          · cases hn : lit.neg <;> simp [hrest, hd, ho]
          · simp [hrest, hd, ho]
      · simp [hrest]

/-- The float fields that `parseMetadata` computes. -/
theorem parseMetadata_float_fields (L : FloatLib) (probeResult : FFProbeResult)
    (stream : StreamDetail) :
    (parseMetadata L probeResult stream).DurationSec =
        (L.ParseFloat probeResult.Format.Duration).1 ∧
    (parseMetadata L probeResult stream).FileSizeMB =
        L.fdiv (L.ParseFloat probeResult.Format.Size).1 (L.ofNat (1024 * 1024)) := by
  unfold parseMetadata
  cases hs : stream.Tags with
  | none =>
    cases hft : probeResult.Format.Tags with
    | none => simp
    | some ftags => simp
  | some tags =>
    cases hft : probeResult.Format.Tags with
    | none => simp
    | some ftags =>
      by_cases ht : mapGet tags "title" = ""
      · simp [ht]
      · simp [ht]

theorem lor_upper (b : Nat) (h1 : 65 ≤ b) (h2 : b ≤ 90) : b ||| 32 = b + 32 := by
  interval_cases b <;> rfl

theorem commonPrefixLen_zero (s pat : List Char) (c : Char) (k : Nat) (hk : c.toNat = k)
    (hkk : k ||| 32 = k)
    (h : s = [] ∨ ∃ d rest, s = d :: rest ∧ lowerByte d ≠ k) :
    commonPrefixLenIgnoreCase s (c :: pat) = 0 := by
  rcases h with h | ⟨d, rest, h, hd⟩
  · subst h; rfl
  · subst h
    simp only [commonPrefixLenIgnoreCase]
    have hne : (if 65 ≤ leadByte d ∧ leadByte d ≤ 90 then leadByte d + 32 else leadByte d) ≠
        c.toNat := by
      intro heq
      apply hd
      unfold lowerByte
      rw [hk] at heq
      by_cases hu : 65 ≤ leadByte d ∧ leadByte d ≤ 90
      · rw [if_pos hu] at heq
        rw [lor_upper (leadByte d) hu.1 hu.2]
        exact heq
      · rw [if_neg hu] at heq
        rw [heq]
        exact hkk
    simp [hne]

theorem specialInf_none (neg : Bool) (s : List Char)
    (h : s = [] ∨ ∃ d rest, s = d :: rest ∧ lowerByte d ≠ 105) : specialInf neg s = none := by
  have h0 : commonPrefixLenIgnoreCase s "infinity".toList = 0 :=
    commonPrefixLen_zero s "nfinity".toList 'i' 105 rfl rfl h
  unfold specialInf
  rw [h0]
  rfl

/-- A text in which no character is `i`, `I`, `n` or `N` is no spelling of an
infinity or of NaN. -/
theorem special_none (s : List Char)
    (h : ∀ c ∈ s, lowerByte c ≠ 105 ∧ lowerByte c ≠ 110) : special s = none := by
  unfold special
  cases s with
  | nil => rfl
  | cons c rest =>
    have hc := h c (List.mem_cons_self c rest)
    have hi : ¬ (c = 'i' ∨ c = 'I') := by
      rintro (rfl | rfl) <;> exact hc.1 rfl
    have hn : ¬ (c = 'n' ∨ c = 'N') := by
      rintro (rfl | rfl) <;> exact hc.2 rfl
    simp only [hi, hn, if_false]
    by_cases hs : c = '+' ∨ c = '-'
    · rw [if_pos hs]
      apply specialInf_none
      cases rest with
      | nil => exact Or.inl rfl
      | cons d tl => exact Or.inr ⟨d, tl, rfl, (h d (by simp)).1⟩
    · rw [if_neg hs]

theorem readDigits_no_digit (cs : List Char) (st : DigitState)
    (h : ∀ c ∈ cs, 9 < subZero c) :
    (readDigits false cs st).1.sawdigits = st.sawdigits := by
  induction cs generalizing st with
  | nil => rfl
  | cons c cs ih =>
    have hc : ¬ subZero c ≤ 9 := Nat.not_le.mpr (h c (List.mem_cons_self c cs))
    have hrest : ∀ x ∈ cs, 9 < subZero x := fun x hx => h x (List.mem_cons_of_mem c hx)
    rw [readDigits]
    by_cases h1 : c = '_'
    · rw [if_pos h1]
      exact ih _ hrest
    · rw [if_neg h1]
      by_cases h2 : c = '.'
      · rw [if_pos h2]
        by_cases h3 : st.sawdot = true
        · rw [if_pos h3]
        · rw [if_neg h3]
          exact ih _ hrest
      · rw [if_neg h2, if_neg hc, if_neg (fun hx => Bool.false_ne_true hx.1)]

theorem hasHexMarker_no_digit (s : List Char) (h : ∀ c ∈ s, 9 < subZero c) :
    hasHexMarker s = false := by
  cases s with
  | nil => rfl
  | cons a tl =>
    have ha : a ≠ '0' := by
      intro ha
      have := h a (List.mem_cons_self a tl)
      rw [ha] at this
      exact absurd this (by decide)
    cases tl with
    | nil => rfl
    | cons b tl2 =>
      cases tl2 with
      | nil => rfl
      | cons x tl3 => simp [hasHexMarker, ha]

/-- A text without any decimal digit starts no well-formed literal. -/
theorem readFloat_no_digit (s : List Char) (h : ∀ c ∈ s, 9 < subZero c) :
    readFloat s = none := by
  unfold readFloat
  cases s with
  | nil => rfl
  | cons c rest =>
    simp only
    have hs1 : ∀ x ∈ (if c = '+' ∨ c = '-' then rest else c :: rest), 9 < subZero x := by
      by_cases hs : c = '+' ∨ c = '-'
      · rw [if_pos hs]; exact fun x hx => h x (List.mem_cons_of_mem c hx)
      · rw [if_neg hs]; exact h
    rw [hasHexMarker_no_digit _ hs1]
    simp only [Bool.false_eq_true, if_false]
    have hd := readDigits_no_digit (if c = '+' ∨ c = '-' then rest else c :: rest)
      { underscores := false, sawdot := false, sawdigits := false, nd := 0, dp := 0, digits := 0 }
      hs1
    simp only at hd
    simp [hd]

/-- A text without any decimal digit and without the letters `i`, `I`, `n`, `N`
(the empty text, a sign alone, words made of other characters) is rejected by
`ParseFloat` with a syntax error and the value 0. -/
theorem ParseFloat64_no_digit (R : Rounding) (t : String)
    (h : ∀ c ∈ t.toList, 9 < subZero c ∧ lowerByte c ≠ 105 ∧ lowerByte c ≠ 110) :
    ParseFloat64 R t = (Float64.zero, some NumErr.ErrSyntax) := by
  unfold ParseFloat64
  rw [special_none t.toList (fun c hc => (h c hc).2),
    readFloat_no_digit t.toList (fun c hc => (h c hc).1)]

/-- Counterexample to C8: texts rejected with a range error do not give the zero
value.  The digit string `99999999999999999999` gives the sample rate `2^63 - 1`
and the bit rate `(2^63 - 1) / 1000`; the duration `1e999` gives `+Inf` and the
size `-1e999` gives `-Inf`. -/
theorem out_of_range_rate_not_zero :
    (Atoi saturatedStream.SampleRate).2 = some NumErr.ErrRange ∧
    (Atoi saturatedStream.BitRate).2 = some NumErr.ErrRange ∧
    (parseMetadata nullFloat songResult saturatedStream).SampleRateHz = 9223372036854775807 ∧
    (parseMetadata nullFloat songResult saturatedStream).BitRateKbps = 9223372036854775 ∧
    (parseMetadata nullFloat songResult saturatedStream).SampleRateHz ≠ 0 ∧
    (parseMetadata nullFloat songResult saturatedStream).BitRateKbps ≠ 0 ∧
    (ParseFloat64 plainRounding overflowResult.Format.Duration).2 = some NumErr.ErrRange ∧
    (ParseFloat64 plainRounding overflowResult.Format.Size).2 = some NumErr.ErrRange ∧
    (parseMetadata (goFloat plainRounding) overflowResult saturatedStream).DurationSec =
      Float64.inf false ∧
    (parseMetadata (goFloat plainRounding) overflowResult saturatedStream).FileSizeMB =
      Float64.inf true ∧
    (parseMetadata (goFloat plainRounding) overflowResult saturatedStream).DurationSec ≠
      Float64.zero ∧
    (parseMetadata (goFloat plainRounding) overflowResult saturatedStream).FileSizeMB ≠
      Float64.zero := by
  decide

/-- C8 as amended: `parseMetadata` never fails on a numeric text.  For every text
rejected with a syntax error the field is the zero value: the sample rate is 0,
the bit rate is 0, the duration is 0.0 and the size in MB is 0.0; texts without
a decimal digit (the empty text, words) are rejected that way by both parsers
(for the float parser, unless they spell an infinity or NaN), and so is, by the
integer parser, every text in which digits of value below `2^64` are followed by
a character that is not a digit.  For a text rejected with a range error the
saturated value is kept: the sample rate is `2^63 - 1` or `-2^63`, the bit rate
is that value divided by 1000, the duration is `+Inf` or `-Inf` and so is the
size in MB; the decimal text of every integer outside the `int64` range is
rejected that way. -/
theorem numeric_errors_discarded (L : FloatLib) (R : Rounding) (probeResult : FFProbeResult)
    (stream : StreamDetail) :
    (∀ t, (Atoi t).2 = some NumErr.ErrSyntax →
      (stream.SampleRate = t → (parseMetadata L probeResult stream).SampleRateHz = 0) ∧
      (stream.BitRate = t → (parseMetadata L probeResult stream).BitRateKbps = 0)) ∧
    (∀ t : String, (∀ c ∈ t.toList, 9 < subZero c) → (Atoi t).2 = some NumErr.ErrSyntax) ∧
    (∀ pre post c, pre ≠ [] → (∀ x ∈ pre, subZero x ≤ 9) → decimalValue pre 0 < 2 ^ 64 →
      9 < subZero c → (Atoi (String.mk (pre ++ c :: post))).2 = some NumErr.ErrSyntax) ∧
    (∀ t, (Atoi t).2 = some NumErr.ErrRange →
      (stream.SampleRate = t →
        (parseMetadata L probeResult stream).SampleRateHz = 9223372036854775807 ∨
        (parseMetadata L probeResult stream).SampleRateHz = -9223372036854775808) ∧
      (stream.BitRate = t →
        (parseMetadata L probeResult stream).BitRateKbps = 9223372036854775 ∨
        (parseMetadata L probeResult stream).BitRateKbps = -9223372036854775)) ∧
    (∀ n : Int, 2 ^ 63 ≤ n ∨ n < -2 ^ 63 → (Atoi (toString n)).2 = some NumErr.ErrRange) ∧
    (∀ n : Int, 2 ^ 63 ≤ n →
      (stream.SampleRate = toString n →
        (parseMetadata L probeResult stream).SampleRateHz = 9223372036854775807) ∧
      (stream.BitRate = toString n →
        (parseMetadata L probeResult stream).BitRateKbps = 9223372036854775)) ∧
    (∀ t, (ParseFloat64 R t).2 = some NumErr.ErrSyntax →
      (probeResult.Format.Duration = t →
        (parseMetadata (goFloat R) probeResult stream).DurationSec = Float64.zero) ∧
      (probeResult.Format.Size = t →
        (parseMetadata (goFloat R) probeResult stream).FileSizeMB = Float64.zero)) ∧
    (∀ t : String, (∀ c ∈ t.toList, 9 < subZero c ∧ lowerByte c ≠ 105 ∧ lowerByte c ≠ 110) →
      (ParseFloat64 R t).2 = some NumErr.ErrSyntax) ∧
    (∀ t, (ParseFloat64 R t).2 = some NumErr.ErrRange →
      (probeResult.Format.Duration = t →
        (parseMetadata (goFloat R) probeResult stream).DurationSec = Float64.inf false ∨
        (parseMetadata (goFloat R) probeResult stream).DurationSec = Float64.inf true) ∧
      (probeResult.Format.Size = t →
        (parseMetadata (goFloat R) probeResult stream).FileSizeMB = Float64.inf false ∨
        (parseMetadata (goFloat R) probeResult stream).FileSizeMB = Float64.inf true)) := by
  have hf := parseMetadata_stream_fields L probeResult stream
  have hg := parseMetadata_float_fields (goFloat R) probeResult stream
  have hdur : (parseMetadata (goFloat R) probeResult stream).DurationSec =
      (ParseFloat64 R probeResult.Format.Duration).1 := hg.1
  have hsize : (parseMetadata (goFloat R) probeResult stream).FileSizeMB =
      Float64.div R (ParseFloat64 R probeResult.Format.Size).1
        (Float64.finite false (1024 * 1024) 0) := hg.2
  refine ⟨?_, ?_, ?_, ?_, ?_, ?_, ?_, ?_, ?_⟩
  · intro t ht
    have h0 := (Atoi_error t).1 ht
    constructor
    · intro hs; rw [hf.2.1, hs, h0]
    · intro hb; rw [hf.2.2.1, hb, h0]; rfl
  · intro t ht
    rw [Atoi_no_digit t ht]
  · intro pre post c hne hd hv hc
    rw [Atoi_digits_then_other pre post c hne hd hv hc]
  · intro t ht
    have h0 := (Atoi_error t).2 ht
    constructor
    · intro hs
      rw [hf.2.1, hs]
      rcases h0 with h0 | h0
      · left; rw [h0]; norm_num
      · right; rw [h0]; norm_num
    · intro hb
      rw [hf.2.2.1, hb]
      rcases h0 with h0 | h0
      · left; rw [h0]; norm_num; decide
      · right; rw [h0]; norm_num; decide
  · intro n hn
    rcases hn with hn | hn
    · rw [(Atoi_toString_out_of_range n).1 hn]
    · rw [(Atoi_toString_out_of_range n).2 hn]
  · intro n hn
    have h0 := (Atoi_toString_out_of_range n).1 hn
    constructor
    · intro hs; rw [hf.2.1, hs, h0]; norm_num
    · intro hb; rw [hf.2.2.1, hb, h0]; norm_num; decide
  · intro t ht
    have h0 := (ParseFloat64_error R t).1 ht
    constructor
    · intro hd; rw [hdur, hd, h0]
    · intro hs; rw [hsize, hs, h0]; rfl
  · intro t ht
    rw [ParseFloat64_no_digit R t ht]
  · intro t ht
    have h0 := (ParseFloat64_error R t).2 ht
    constructor
    · intro hd
      rw [hdur, hd]
      exact h0
    · intro hs
      rw [hsize, hs]
      rcases h0 with h0 | h0
      · left; rw [h0]; rfl
      · right; rw [h0]; rfl

/-- Witness of the amended C8: the empty sample rate of the video stream gives 0;
the empty duration and the size `abc` give 0.0; the digit string
`99999999999999999999` gives `2^63 - 1` Hz and `9223372036854775` kbps; the
duration `1e999` gives `+Inf`. -/
theorem numeric_errors_discarded_witness :
    (parseMetadata nullFloat songResult videoStream).SampleRateHz = 0 ∧
    (parseMetadata (goFloat plainRounding) unparsableResult aacStream).DurationSec =
      Float64.zero ∧
    (parseMetadata (goFloat plainRounding) unparsableResult aacStream).FileSizeMB =
      Float64.zero ∧
    (parseMetadata nullFloat songResult saturatedStream).SampleRateHz = 9223372036854775807 ∧
    (parseMetadata nullFloat songResult saturatedStream).BitRateKbps = 9223372036854775 ∧
    ((parseMetadata (goFloat plainRounding) overflowResult saturatedStream).DurationSec =
        Float64.inf false ∨
      (parseMetadata (goFloat plainRounding) overflowResult saturatedStream).DurationSec =
        Float64.inf true) :=
  ⟨((numeric_errors_discarded nullFloat plainRounding songResult videoStream).1 ""
      (by decide)).1 rfl,
   ((numeric_errors_discarded nullFloat plainRounding unparsableResult aacStream).2.2.2.2.2.2.1 ""
      (by decide)).1 rfl,
   ((numeric_errors_discarded nullFloat plainRounding unparsableResult aacStream).2.2.2.2.2.2.1
      "abc" (by decide)).2 rfl,
   ((numeric_errors_discarded nullFloat plainRounding songResult saturatedStream).2.2.2.2.2.1
      99999999999999999999 (by decide)).1 (by decide),
   ((numeric_errors_discarded nullFloat plainRounding songResult saturatedStream).2.2.2.2.2.1
      99999999999999999999 (by decide)).2 (by decide),
   ((numeric_errors_discarded nullFloat plainRounding overflowResult
      saturatedStream).2.2.2.2.2.2.2.2 "1e999" (by decide)).1 rfl⟩

end AudioScanner
